import Mathlib

/-! # Overlay: gesture detector, frame pacer, start-up and render loop

A shallow embedding of `src/Overlay/src/main.cpp`.

Conventions of the embedding:

* the global `g_overlay` is passed explicitly: every function that touches it takes the
  current `OverlayState` and returns the next one;
* results of operating-system and library calls (`GetTickCount`, `steady_clock::now`,
  `PeekMessage`, `CreateWindowExW`, ...) are inputs of the model;
* `DWORD` values are natural numbers and `DWORD` subtraction wraps modulo `2 ^ 32`;
* `int` fields are integers; signed overflow is undefined behaviour in C++, so the
  model agrees with the program on every execution whose behaviour is defined;
* handles and pointers are natural numbers, `0` being `nullptr`;
* `float` values are the rational numbers they denote, every `float` operation being
  followed by rounding to 24 significant bits (round to nearest, ties to even).
-/

namespace Overlay

/-! ## Platform constants (`Windows.h`) -/

/-- The message `WM_LBUTTONDOWN`, primary button down. -/
def WM_LBUTTONDOWN : Nat := 0x0201

/-- The message `WM_KEYDOWN`. -/
def WM_KEYDOWN : Nat := 0x0100

/-- The message `WM_DESTROY`. -/
def WM_DESTROY : Nat := 0x0002

/-- The message `WM_QUIT`. -/
def WM_QUIT : Nat := 0x0012

/-- The virtual-key code `VK_ESCAPE`. -/
def VK_ESCAPE : Nat := 0x1B

/-- Number of values of a `DWORD`. -/
def DWORD_RANGE : Nat := 4294967296

/-- Subtraction of two `DWORD`s, `a - b` in C++: the result wraps modulo `2 ^ 32`. -/
def dwordSub (a b : Nat) : Nat :=
  (a % DWORD_RANGE + (DWORD_RANGE - b % DWORD_RANGE)) % DWORD_RANGE

/-! ## `float` arithmetic -/

/-- Auxiliary for `ilog2`, with the recursion depth as first argument. -/
def ilog2Aux : Nat → Nat → Nat
  | 0, _ => 0
  | fuel + 1, n => if n < 2 then 0 else ilog2Aux fuel (n / 2) + 1

/-- Floor of the binary logarithm of a positive natural number. -/
def ilog2 (n : Nat) : Nat := ilog2Aux n n

/-- Floor of the binary logarithm of `n / d`, for positive `n` and `d`. -/
def floorLog2 (n d : Nat) : Int :=
  let e0 : Int := (ilog2 n : Int) - (ilog2 d : Int)
  let reached : Bool :=
    if 0 ≤ e0 then decide (2 ^ e0.toNat * d ≤ n) else decide (d ≤ 2 ^ (-e0).toNat * n)
  if reached then e0 else e0 - 1

/-- The integer nearest to `N / D`, a tie going to the even neighbour. -/
def roundHalfEven (N D : Nat) : Nat :=
  let q := N / D
  let r := N % D
  if 2 * r < D then q
  else if D < 2 * r then q + 1
  else if q % 2 = 0 then q else q + 1

/-- The 24-bit significand `m` and the exponent `k` of the `float` nearest to `n / d`
(`n`, `d` positive): the `float` is `m * 2 ^ k`. -/
def f32Significand (n d : Nat) : Nat × Int :=
  let k : Int := floorLog2 n d - 23
  let m : Nat :=
    if 0 ≤ k then roundHalfEven n (d * 2 ^ k.toNat) else roundHalfEven (n * 2 ^ (-k).toNat) d
  (m, k)

/-- Rounding of a real (here rational) number to `float`: nearest value with a 24-bit
significand, ties to even.  The exponent range of `float` is not modelled: with an
`int` frame count and a 64-bit nanosecond clock, every value `UpdateOverlayFPS`
computes is `0` or of magnitude between `2 ^ (-34)` and `2 ^ 44`, well inside the
normal range of `float`. -/
def f32Round (x : ℚ) : ℚ :=
  if x = 0 then 0
  else
    let mk := f32Significand x.num.natAbs x.den
    let mag : ℚ := (mk.1 : ℚ) * (2 : ℚ) ^ mk.2
    if x < 0 then -mag else mag

/-- Conversion of an integer to `float`. -/
def f32OfInt (n : Int) : ℚ := f32Round (n : ℚ)

/-- Division of two `float`s (the divisor is not zero wherever the program divides). -/
def f32Div (a b : ℚ) : ℚ := f32Round (a / b)

/-- The text `sprintf_s` produces for `%.1f`: sign, integer part, a point and one
decimal, the value being rounded to the nearest tenth; a value exactly halfway goes
to the even digit, as the C runtime does since Windows 10 version 2004 (earlier
runtimes round such a value away from zero). -/
def formatFixed1 (x : ℚ) : String :=
  let tenths := roundHalfEven (x.num.natAbs * 10) x.den
  (if x < 0 then "-" else "") ++ toString (tenths / 10) ++ "." ++ toString (tenths % 10)

/-! ## Shared state -/

/-- The `struct OverlayState` with its default member initialisers.  The two
`steady_clock::time_point`s count clock ticks (nanoseconds); a value-initialised
`time_point` is the epoch, `0`.  `fps_text_cache` is the string the 64-byte buffer
holds. -/
structure OverlayState where
  should_exit : Bool := false
  last_click_time : Nat := 0
  click_count : Int := 0
  window_handle : Nat := 0
  overlay_fps : ℚ := 0
  last_frame_time : Int := 0
  last_fps_update : Int := 0
  frame_count : Int := 0
  fps_text_cache : String := "FPS: ..."
  fps_initialized : Bool := false
  deriving DecidableEq

/-- The global `g_overlay` as the program starts. -/
def g_overlay : OverlayState := {}

/-! ## Gesture detector -/

/-- What `LowLevelMouseProc` returns: `1` (the event is swallowed), or the result of
`CallNextHookEx(g_mouse_hook, nCode, wParam, lParam)` with the arguments it passes on. -/
inductive HookReturn where
  | swallowed
  | callNextHook (nCode : Int) (wParam : Nat) (lParam : Int)
  deriving DecidableEq

/-- The hook procedure `LowLevelMouseProc`; `tick` is the value `GetTickCount()`
returns. -/
def LowLevelMouseProc (g : OverlayState) (nCode : Int) (wParam : Nat) (lParam : Int)
    (tick : Nat) : OverlayState × HookReturn :=
  if 0 ≤ nCode then
    if wParam = WM_LBUTTONDOWN then
      let current_time := tick
      let g1 : OverlayState :=
        if dwordSub current_time g.last_click_time > 500 then { g with click_count := 0 } else g
      let g2 : OverlayState := { g1 with click_count := g1.click_count + 1 }
      let g3 : OverlayState := { g2 with last_click_time := current_time }
      if 2 ≤ g3.click_count then
        ({ g3 with should_exit := true, click_count := 0 }, HookReturn.swallowed)
      else (g3, HookReturn.callNextHook nCode wParam lParam)
    else (g, HookReturn.callNextHook nCode wParam lParam)
  else (g, HookReturn.callNextHook nCode wParam lParam)

/-- The value of `click_count` right after `g_overlay.click_count++` when a
primary-button-down arrives at tick `tick` in state `g` (lines 51 to 55). -/
def clickCountAfterIncrement (g : OverlayState) (tick : Nat) : Int :=
  (if dwordSub tick g.last_click_time > 500 then 0 else g.click_count) + 1

/-! ## Window procedure -/

/-- How `window_procedure` returns: `0L` after ImGui took the message, `0` after the
escape key or after `PostQuitMessage(0)`, or the result of `DefWindowProc`. -/
inductive WndProcReturn where
  | imguiHandled
  | escapeHandled
  | postQuitMessage
  | defWindowProc (message w_param : Nat) (l_param : Int)
  deriving DecidableEq

/-- The function `window_procedure`; `imgui_handled` is the truth value of the call
`ImGui_ImplWin32_WndProcHandler(window, message, w_param, l_param)`. -/
def window_procedure (g : OverlayState) (imgui_handled : Bool)
    (message w_param : Nat) (l_param : Int) : OverlayState × WndProcReturn :=
  if imgui_handled then (g, WndProcReturn.imguiHandled)
  else if message = WM_KEYDOWN then
    if w_param = VK_ESCAPE then ({ g with should_exit := true }, WndProcReturn.escapeHandled)
    else (g, WndProcReturn.defWindowProc message w_param l_param)
  else if message = WM_DESTROY then (g, WndProcReturn.postQuitMessage)
  else (g, WndProcReturn.defWindowProc message w_param l_param)

/-! ## Frame pacer -/

/-- Clock ticks of `steady_clock` per millisecond. -/
def TICKS_PER_MS : Int := 1000000

/-- The `duration_cast<milliseconds>(current_time - last).count()`: whole milliseconds,
truncated toward zero. -/
def elapsedMs (current_time last : Int) : Int :=
  Int.tdiv (current_time - last) TICKS_PER_MS

/-- The function `UpdateOverlayFPS`; `now` is the value `steady_clock::now()` returns. -/
def UpdateOverlayFPS (g : OverlayState) (now : Int) : OverlayState :=
  let current_time := now
  let g1 : OverlayState := { g with frame_count := g.frame_count + 1 }
  let duration := elapsedMs current_time g1.last_fps_update
  let g2 : OverlayState :=
    if 1000 ≤ duration then
      let time_elapsed := f32Div (f32OfInt duration) 1000
      let overlay_fps := f32Div (f32OfInt g1.frame_count) time_elapsed
      { g1 with
        overlay_fps := overlay_fps
        frame_count := 0
        last_fps_update := current_time
        fps_initialized := true
        fps_text_cache := "FPS: " ++ formatFixed1 overlay_fps }
    else g1
  if !g2.fps_initialized then { g2 with fps_text_cache := "FPS: ..." } else g2

/-! ## Runs of hook events -/

/-- The code `HC_ACTION`, the only non-negative code a low-level mouse hook receives. -/
def HC_ACTION : Int := 0

/-- One primary-button-down event, stamped `tick`, delivered to the hook. -/
def click (g : OverlayState) (tick : Nat) : OverlayState × HookReturn :=
  LowLevelMouseProc g HC_ACTION WM_LBUTTONDOWN 0 tick

/-- The state after the primary-button-down events stamped `ts`, in this order. -/
def clicks (g : OverlayState) (ts : List Nat) : OverlayState :=
  ts.foldl (fun s t => (click s t).1) g

/-- Whether click number `k` (counted from `0`) of the sequence `ts`, fed to the hook
from the initial state, takes the branch that assigns `should_exit = true`; that
branch is the one returning `1`. -/
def raisedAt (ts : List Nat) (k : Nat) : Bool :=
  match ts.drop k with
  | [] => false
  | t :: _ => decide ((click (clicks g_overlay (ts.take k)) t).2 = HookReturn.swallowed)

/-- Two clicks stamped `a` then `b` are at most 500 ms apart, in `DWORD` arithmetic. -/
def Rapid (a b : Nat) : Prop := dwordSub b a ≤ 500

instance (a b : Nat) : Decidable (Rapid a b) := by unfold Rapid; infer_instance

/-- Some two consecutive elements of the list are at most 500 ms apart. -/
def hasRapidPair : List Nat → Bool
  | a :: b :: rest => decide (Rapid a b) || hasRapidPair (b :: rest)
  | _ => false

/-- A call of one of the three functions that touch `g_overlay`. -/
inductive Call where
  | mouse (nCode : Int) (wParam : Nat) (lParam : Int) (tick : Nat)
  | window (imgui_handled : Bool) (message w_param : Nat) (l_param : Int)
  | fps (now : Int)

/-- The state after one call. -/
def Call.run (g : OverlayState) : Call → OverlayState
  | Call.mouse nCode wParam lParam tick => (LowLevelMouseProc g nCode wParam lParam tick).1
  | Call.window imgui_handled message w_param l_param =>
    (window_procedure g imgui_handled message w_param l_param).1
  | Call.fps now => UpdateOverlayFPS g now

/-- The state after a sequence of calls, in any interleaving. -/
def runCalls (g : OverlayState) (cs : List Call) : OverlayState :=
  cs.foldl Call.run g

/-! ## Runs of the frame pacer -/

/-- The first statements of `WinMain`: both time points of `g_overlay` are set to the
start time. -/
def startClock (g : OverlayState) (start_time : Int) : OverlayState :=
  { g with last_frame_time := start_time, last_fps_update := start_time }

/-- The state after calls of `UpdateOverlayFPS` at the clock readings `ts`. -/
def ticks (g : OverlayState) (ts : List Int) : OverlayState :=
  ts.foldl UpdateOverlayFPS g

/-- The clock readings of `n` calls spread uniformly over `spanMs` milliseconds after
`start`: call number `i` (from 1) happens `i * spanMs / n` milliseconds after `start`. -/
def uniformTicks (start : Int) (n : Nat) (spanMs : Int) : List Int :=
  (List.range n).map
    (fun (i : Nat) => start + (((i : Int) + 1) * spanMs * TICKS_PER_MS) / (n : Int))

/-! ## Messages, observable steps and the render loop -/

/-- The fields of an `MSG` the program depends on. -/
structure MSG where
  hwnd : Nat
  message : Nat
  wParam : Nat
  lParam : Int
  deriving DecidableEq

/-- What the thread meets while it drains its queue with `PeekMessage`: the system
calling the installed low-level hook (`tick` being what `GetTickCount()` returns
there), or a message handed back by `PeekMessage`, together with the truth value
`ImGui_ImplWin32_WndProcHandler` would return for it. -/
inductive PumpEvent where
  | hook (nCode : Int) (wParam : Nat) (lParam : Int) (tick : Nat)
  | message (msg : MSG) (imgui_handled : Bool)
  deriving DecidableEq

/-- The calls the program makes that are visible outside of it, and the calls of its
own functions, as they appear in a run of `WinMain`. -/
inductive Step where
  | SetPriorityClass
  | SetThreadPriority
  | RegisterClassExW
  | CreateWindowExW
  | MessageBox (text : String)
  | SetWindowsHookEx
  | D3D11CreateDeviceAndSwapChain
  | GetBuffer
  | CreateRenderTargetView (back_buffer : Nat)
  | Release (object : Nat)
  | ImGuiCreateContext
  | ImGuiStyleColorsDark
  | ImGui_ImplWin32_Init (window : Nat)
  | ImGui_ImplDX11_Init (device device_context : Nat)
  | ShowWindow (window : Nat)
  | UpdateWindow (window : Nat)
  | LowLevelMouseProc (result : HookReturn)
  | TranslateMessage (msg : MSG)
  | DispatchMessage (msg : MSG)
  | UpdateOverlayFPS
  | ImGuiNewFrame
  | drawOverlay (fps_text : String)
  | ImGuiRender
  | OMSetRenderTargets (render_target_view : Nat)
  | ClearRenderTargetView (render_target_view : Nat)
  | ImGui_ImplDX11_RenderDrawData
  | Present
  | UnhookWindowsHookEx (hook : Nat)
  | ImGui_ImplDX11_Shutdown
  | ImGui_ImplWin32_Shutdown
  | ImGuiDestroyContext
  | DestroyWindow (window : Nat)
  | UnregisterClassW
  deriving DecidableEq

/-- The call `DispatchMessage(&msg)`: a message addressed to the overlay window reaches
`window_procedure`; any other message (a thread message such as `WM_QUIT`, whose
window is null, or a message of another window) does not. -/
def DispatchMessage (g : OverlayState) (msg : MSG) (imgui_handled : Bool) : OverlayState :=
  if msg.hwnd ≠ 0 ∧ msg.hwnd = g.window_handle then
    (window_procedure g imgui_handled msg.message msg.wParam msg.lParam).1
  else g

/-- The inner `while (PeekMessage(...))` loop of `WinMain` (lines 256 to 263), run until
`PeekMessage` returns false: the state, the local `running` and the steps made. -/
def drainMessages (g : OverlayState) (running : Bool) :
    List PumpEvent → OverlayState × Bool × List Step
  | [] => (g, running, [])
  | PumpEvent.hook nCode wParam lParam tick :: rest =>
    let r := LowLevelMouseProc g nCode wParam lParam tick
    let d := drainMessages r.1 running rest
    (d.1, d.2.1, Step.LowLevelMouseProc r.2 :: d.2.2)
  | PumpEvent.message msg imgui_handled :: rest =>
    let g1 := DispatchMessage g msg imgui_handled
    let running1 := if msg.message = WM_QUIT then false else running
    let d := drainMessages g1 running1 rest
    (d.1, d.2.1, Step.TranslateMessage msg :: Step.DispatchMessage msg :: d.2.2)

/-- What one pass through the body of the render loop takes from its environment. -/
structure FrameInput where
  pump : List PumpEvent
  now : Int
  deriving DecidableEq

/-- How one pass through the body of the render loop ends. -/
inductive LoopControl where
  | breakLoop
  | nextIteration
  deriving DecidableEq

/-- The steps of one pass after the drain, when the loop does not break (lines 267 to
325); the GUI layout and the two `AddText` calls are one step showing the FPS text. -/
def frameSteps (g : OverlayState) (render_target_view : Nat) : List Step :=
  [Step.UpdateOverlayFPS, Step.ImGuiNewFrame, Step.drawOverlay g.fps_text_cache,
    Step.ImGuiRender, Step.OMSetRenderTargets render_target_view,
    Step.ClearRenderTargetView render_target_view, Step.ImGui_ImplDX11_RenderDrawData,
    Step.Present]

/-- One pass through the body of the render loop (lines 255 to 325), entered with
`running` true. -/
def renderIteration (render_target_view : Nat) (g : OverlayState) (f : FrameInput) :
    OverlayState × LoopControl × List Step :=
  let d := drainMessages g true f.pump
  if !d.2.1 || d.1.should_exit then (d.1, LoopControl.breakLoop, d.2.2)
  else
    let g1 := UpdateOverlayFPS d.1 f.now
    (g1, LoopControl.nextIteration, d.2.2 ++ frameSteps g1 render_target_view)

/-- The render loop `while (running && !g_overlay.should_exit)` over the passes the
environment provides; `none` when the loop is still running after the last of them. -/
def renderLoop (render_target_view : Nat) :
    OverlayState → List FrameInput → Option (OverlayState × List Step)
  | g, [] => if g.should_exit then some (g, []) else none
  | g, f :: rest =>
    if g.should_exit then some (g, [])
    else
      let r := renderIteration render_target_view g f
      match r.2.1 with
      | LoopControl.breakLoop => some (r.1, r.2.2)
      | LoopControl.nextIteration =>
        (renderLoop render_target_view r.1 rest).map (fun l => (l.1, r.2.2 ++ l.2))

/-! ## Surface teardown and `WinMain` -/

/-- The four local handles of `WinMain` that make up the presentation surface. -/
structure SurfaceHandles where
  render_target_view : Nat
  swap_chain : Nat
  device_context : Nat
  device : Nat
  deriving DecidableEq

/-- The teardown sequence of lines 339 to 342: the handles after it and the `Release`
calls it makes.  No statement of the sequence assigns to a handle. -/
def releaseSurface (h : SurfaceHandles) : SurfaceHandles × List Step :=
  let s1 := if h.render_target_view ≠ 0 then [Step.Release h.render_target_view] else []
  let s2 := if h.swap_chain ≠ 0 then [Step.Release h.swap_chain] else []
  let s3 := if h.device_context ≠ 0 then [Step.Release h.device_context] else []
  let s4 := if h.device ≠ 0 then [Step.Release h.device] else []
  (h, s1 ++ s2 ++ s3 ++ s4)

/-- What the environment answers during one run of `WinMain`: the start time, the
window `CreateWindowExW` returns, the hook `SetWindowsHookEx` returns, the `HRESULT` and
the three objects of `D3D11CreateDeviceAndSwapChain`, the texture `GetBuffer` stores,
the view `render_target_view` holds after `CreateRenderTargetView` (null if the call
failed), and the passes of the render loop. -/
structure StartupEnv where
  start_time : Int
  overlay : Nat
  mouse_hook : Nat
  hr : Int
  swap_chain : Nat
  device : Nat
  device_context : Nat
  back_buffer : Nat
  render_target_view : Nat
  frames : List FrameInput

/-- The outcome of a run of `WinMain`: the exit code (`none` when the render loop is
still running after the last pass provided), the final `g_overlay` and the steps. -/
structure WinMainResult where
  exit_code : Option Int
  g : OverlayState
  steps : List Step
  deriving DecidableEq

/-- The steps of `WinMain` between the creation of the render-target view and the
render loop (lines 226 to 248). -/
def guiSetupSteps (env : StartupEnv) : List Step :=
  [Step.CreateRenderTargetView env.back_buffer, Step.Release env.back_buffer,
    Step.ImGuiCreateContext, Step.ImGuiStyleColorsDark,
    Step.ImGui_ImplWin32_Init env.overlay,
    Step.ImGui_ImplDX11_Init env.device env.device_context,
    Step.ShowWindow env.overlay, Step.UpdateWindow env.overlay]

/-- The steps of `WinMain` after the render loop (lines 331 to 350). -/
def shutdownSteps (env : StartupEnv) (g : OverlayState) : List Step :=
  (if env.mouse_hook ≠ 0 then [Step.UnhookWindowsHookEx env.mouse_hook] else []) ++
    [Step.ImGui_ImplDX11_Shutdown, Step.ImGui_ImplWin32_Shutdown, Step.ImGuiDestroyContext] ++
    (releaseSurface ⟨env.render_target_view, env.swap_chain, env.device_context,
      env.device⟩).2 ++
    [Step.DestroyWindow g.window_handle, Step.UnregisterClassW]

/-- The steps of `WinMain` up to and including `CreateWindowExW`. -/
def windowSteps : List Step :=
  [Step.SetPriorityClass, Step.SetThreadPriority, Step.RegisterClassExW, Step.CreateWindowExW]

/-- The state of `g_overlay` once the window exists (line 162). -/
def stateAfterWindow (env : StartupEnv) : OverlayState :=
  { startClock g_overlay env.start_time with window_handle := env.overlay }

/-- The entry point `WinMain`; everything its environment answers is in `env`. -/
def WinMain (env : StartupEnv) : WinMainResult :=
  let g0 := startClock g_overlay env.start_time
  let steps0 := windowSteps
  if env.overlay = 0 then
    ⟨some 1, g0, steps0 ++ [Step.MessageBox "Error creating window!"]⟩
  else
    let g1 : OverlayState := stateAfterWindow env
    let steps1 := steps0 ++ [Step.SetWindowsHookEx]
    if env.mouse_hook = 0 then
      ⟨some 1, g1, steps1 ++ [Step.MessageBox "Error installing mouse hook!"]⟩
    else
      let steps2 := steps1 ++ [Step.D3D11CreateDeviceAndSwapChain]
      if env.hr < 0 then
        ⟨some 1, g1, steps2 ++ [Step.MessageBox "Error initializing DirectX!"]⟩
      else
        let steps3 := steps2 ++ [Step.GetBuffer]
        if env.back_buffer ≠ 0 then
          let steps4 := steps3 ++ guiSetupSteps env
          match renderLoop env.render_target_view g1 env.frames with
          | none => ⟨none, g1, steps4⟩
          | some l => ⟨some 0, l.1, steps4 ++ l.2 ++ shutdownSteps env l.1⟩
        else
          ⟨some 1, g1, steps3 ++ [Step.MessageBox "Back buffer error!"]⟩

/-- The message a step dispatches, if the step is a `DispatchMessage`. -/
def Step.dispatched : Step → Option MSG
  | Step.DispatchMessage msg => some msg
  | _ => none

/-- The message a pump event stands for, if it is one. -/
def PumpEvent.pending : PumpEvent → Option MSG
  | PumpEvent.message msg _ => some msg
  | PumpEvent.hook _ _ _ _ => none

/-- Whether a pump event is a quit message. -/
def PumpEvent.isQuit : PumpEvent → Bool
  | PumpEvent.message msg _ => decide (msg.message = WM_QUIT)
  | PumpEvent.hook _ _ _ _ => false

/-- Whether a step belongs to the drain of the message queue. -/
def Step.isDrainStep : Step → Bool
  | Step.LowLevelMouseProc _ => true
  | Step.TranslateMessage _ => true
  | Step.DispatchMessage _ => true
  | _ => false

/-- The pass `f` hands the loop a quit message, or an escape key-down addressed to
the window `w` that ImGui does not take. -/
def EndsLoop (w : Nat) (f : FrameInput) : Prop :=
  (∃ msg imgui_handled, PumpEvent.message msg imgui_handled ∈ f.pump ∧
    msg.message = WM_QUIT) ∨
  (∃ msg, PumpEvent.message msg false ∈ f.pump ∧ msg.hwnd = w ∧
    msg.message = WM_KEYDOWN ∧ msg.wParam = VK_ESCAPE)

/-- A run in which every start-up call succeeds; the loop makes one full pass and
then meets a quit message. -/
def goodRun : StartupEnv :=
  { start_time := 0, overlay := 5, mouse_hook := 6, hr := 0, swap_chain := 11, device := 12,
    device_context := 13, back_buffer := 14, render_target_view := 15,
    frames :=
      [⟨[], 16000000⟩, ⟨[PumpEvent.message ⟨0, WM_QUIT, 0, 0⟩ false], 33000000⟩] }

/-- The run `goodRun`, except that `CreateRenderTargetView` fails and leaves
`render_target_view` null. -/
def noViewRun : StartupEnv := { goodRun with render_target_view := 0 }

/-- Whether a step shows an error dialog. -/
def Step.isMessageBox : Step → Bool
  | Step.MessageBox _ => true
  | _ => false

/-! # Theorems -/

/-! ## Gesture detector -/

theorem click_eq (g : OverlayState) (t : Nat) :
    click g t =
      if 2 ≤ clickCountAfterIncrement g t then
        ({ g with should_exit := true, click_count := 0, last_click_time := t },
          HookReturn.swallowed)
      else
        ({ g with click_count := clickCountAfterIncrement g t, last_click_time := t },
          HookReturn.callNextHook HC_ACTION WM_LBUTTONDOWN 0) := by
  unfold click LowLevelMouseProc clickCountAfterIncrement HC_ACTION
  by_cases h : dwordSub t g.last_click_time > 500 <;> simp [h]

theorem clicks_nil (g : OverlayState) : clicks g [] = g := rfl

theorem clicks_cons (g : OverlayState) (t : Nat) (ts : List Nat) :
    clicks g (t :: ts) = clicks (click g t).1 ts := rfl

theorem clicks_append (g : OverlayState) (ts us : List Nat) :
    clicks g (ts ++ us) = clicks (clicks g ts) us := by
  simp [clicks, List.foldl_append]

/-- A click leaves a raised flag raised. -/
theorem click_should_exit (g : OverlayState) (t : Nat) (h : g.should_exit = true) :
    (click g t).1.should_exit = true := by
  rw [click_eq]
  split_ifs <;> simp [h]

theorem clicks_should_exit (ts : List Nat) (g : OverlayState) (h : g.should_exit = true) :
    (clicks g ts).should_exit = true := by
  induction ts generalizing g with
  | nil => exact h
  | cons t ts ih => exact ih _ (click_should_exit g t h)

/-- A click keeps the counter in `{0, 1}`. -/
theorem click_count_range (g : OverlayState) (t : Nat)
    (h : g.click_count = 0 ∨ g.click_count = 1) :
    (click g t).1.click_count = 0 ∨ (click g t).1.click_count = 1 := by
  rw [click_eq]
  unfold clickCountAfterIncrement
  by_cases hgap : dwordSub t g.last_click_time > 500
  · simp [hgap]
  · rcases h with h | h <;> simp [hgap, h]

theorem clicks_count_range (ts : List Nat) (g : OverlayState)
    (h : g.click_count = 0 ∨ g.click_count = 1) :
    (clicks g ts).click_count = 0 ∨ (clicks g ts).click_count = 1 := by
  induction ts generalizing g with
  | nil => exact h
  | cons t ts ih => exact ih _ (click_count_range g t h)

/-- With the counter at `1`, the flag ends up raised exactly if it was raised before or
the clicks, preceded by the last recorded one, contain a rapid pair. -/
theorem clicks_should_exit_iff (ts : List Nat) (g : OverlayState) (hc : g.click_count = 1) :
    (clicks g ts).should_exit = true ↔
      g.should_exit = true ∨ hasRapidPair (g.last_click_time :: ts) = true := by
  induction ts generalizing g with
  | nil => simp [clicks_nil, hasRapidPair]
  | cons t ts ih =>
    rw [clicks_cons, click_eq]
    unfold clickCountAfterIncrement
    by_cases hgap : dwordSub t g.last_click_time > 500
    · have hr : ¬ Rapid g.last_click_time t := by unfold Rapid; omega
      simp only [hgap, if_true]
      rw [if_neg (by norm_num)]
      rw [ih _ rfl]
      simp [hasRapidPair, hr]
    · have hr : Rapid g.last_click_time t := by unfold Rapid; omega
      simp only [hgap, if_false, hc]
      rw [if_pos (by norm_num)]
      simp only [hasRapidPair, hr, decide_True, Bool.true_or, or_true, iff_true]
      exact clicks_should_exit _ _ rfl

/-- From the initial state the flag ends up raised exactly if the clicks contain a
rapid pair. -/
theorem clicks_init_should_exit_iff (ts : List Nat) :
    (clicks g_overlay ts).should_exit = true ↔ hasRapidPair ts = true := by
  cases ts with
  | nil => simp [clicks_nil, hasRapidPair, g_overlay]
  | cons t ts =>
    rw [clicks_cons, click_eq]
    have h1 : clickCountAfterIncrement g_overlay t = 1 := by
      unfold clickCountAfterIncrement g_overlay
      split_ifs <;> rfl
    rw [h1, if_neg (by norm_num)]
    rw [clicks_should_exit_iff _ _ rfl]
    simp [g_overlay]

theorem hasRapidPair_iff (ts : List Nat) :
    hasRapidPair ts = true ↔
      ∃ pre a b post, ts = pre ++ a :: b :: post ∧ Rapid a b := by
  induction ts with
  | nil => simp [hasRapidPair]
  | cons x xs ih =>
    cases xs with
    | nil =>
      simp only [hasRapidPair, Bool.false_eq_true, false_iff]
      rintro ⟨pre, a, b, post, h, -⟩
      have := congrArg List.length h
      simp at this
      omega
    | cons y ys =>
      simp only [hasRapidPair, Bool.or_eq_true, decide_eq_true_eq, ih]
      constructor
      · rintro (h | ⟨pre, a, b, post, h, hr⟩)
        · exact ⟨[], x, y, ys, rfl, h⟩
        · exact ⟨x :: pre, a, b, post, by rw [h]; rfl, hr⟩
      · rintro ⟨pre, a, b, post, h, hr⟩
        cases pre with
        | nil =>
          simp only [List.nil_append, List.cons.injEq] at h
          obtain ⟨rfl, rfl, -⟩ := h
          exact Or.inl hr
        | cons p pre =>
          simp only [List.cons_append, List.cons.injEq] at h
          exact Or.inr ⟨pre, a, b, post, h.2, hr⟩

theorem click_swallowed_iff (g : OverlayState) (t : Nat) :
    (click g t).2 = HookReturn.swallowed ↔ 2 ≤ clickCountAfterIncrement g t := by
  rw [click_eq]
  split_ifs with h <;> simp [h]

theorem click_last_click_time (g : OverlayState) (t : Nat) :
    (click g t).1.last_click_time = t := by
  rw [click_eq]
  split_ifs <;> rfl

theorem clicks_snoc_last_click_time (g : OverlayState) (ts : List Nat) (t : Nat) :
    (clicks g (ts ++ [t])).last_click_time = t := by
  rw [clicks_append, clicks_cons, clicks_nil, click_last_click_time]

/-- Inside a run of rapid clicks the counter alternates, so the clicks that raise the
flag are those at the positions whose parity is opposite to the counter's. -/
theorem rapid_run_parity (rest : List Nat) (g : OverlayState) (c j : Nat)
    (hc : g.click_count = (c : Int)) (hc1 : c ≤ 1)
    (hchain : List.Chain Rapid g.last_click_time rest) (t : Nat) (tl : List Nat)
    (hdrop : rest.drop j = t :: tl) :
    (click (clicks g (rest.take j)) t).2 = HookReturn.swallowed ↔ (c + j) % 2 = 1 := by
  induction rest generalizing g c j with
  | nil => simp at hdrop
  | cons x xs ih =>
    rw [List.chain_cons] at hchain
    obtain ⟨hx, hxs⟩ := hchain
    have hgap : ¬ dwordSub x g.last_click_time > 500 := by unfold Rapid at hx; omega
    cases j with
    | zero =>
      simp only [List.drop_zero, List.cons.injEq] at hdrop
      obtain ⟨rfl, -⟩ := hdrop
      rw [List.take_zero, clicks_nil, click_swallowed_iff]
      unfold clickCountAfterIncrement
      simp only [hgap, if_false, hc]
      omega
    | succ j =>
      simp only [List.drop_succ_cons] at hdrop
      rw [List.take_succ_cons, clicks_cons]
      have hstep : (click g x).1.click_count = ((1 - c : Nat) : Int) := by
        rw [click_eq]
        unfold clickCountAfterIncrement
        simp only [hgap, if_false, hc]
        interval_cases c <;> simp
      have hlast : (click g x).1.last_click_time = x := click_last_click_time g x
      rw [ih (click g x).1 (1 - c) j hstep (by omega) (by rw [hlast]; exact hxs) hdrop]
      omega

theorem raisedAt_append (pre run : List Nat) (k : Nat) :
    raisedAt (pre ++ run) (pre.length + k) =
      match run.drop k with
      | [] => false
      | t :: _ =>
        decide ((click (clicks (clicks g_overlay pre) (run.take k)) t).2 =
          HookReturn.swallowed) := by
  unfold raisedAt
  have h1 : List.drop (pre.length + k) (pre ++ run) = List.drop k run :=
    List.drop_append k
  have h2 : List.take (pre.length + k) (pre ++ run) = pre ++ List.take k run :=
    List.take_append k
  rw [h1, h2, clicks_append]

/-- The first click of a run (the very first click, or one more than 500 ms after its
predecessor) raises nothing and leaves the counter at `1`. -/
theorem click_fresh (pre : List Nat) (r : Nat)
    (hfresh : ∀ p, pre.getLast? = some p → ¬ Rapid p r) :
    clickCountAfterIncrement (clicks g_overlay pre) r = 1 := by
  unfold clickCountAfterIncrement
  rcases List.eq_nil_or_concat pre with rfl | ⟨pre', p, rfl⟩
  · simp [clicks_nil, g_overlay]
  · have hp := hfresh p (by simp)
    have : dwordSub r (clicks g_overlay (pre' ++ [p])).last_click_time > 500 := by
      rw [clicks_snoc_last_click_time]
      unfold Rapid at hp
      omega
    simp [this]

/-- The hook on any event: only a primary-button-down with a non-negative code does
anything, and then it does what `click_eq` says. -/
theorem LowLevelMouseProc_eq (g : OverlayState) (nCode : Int) (wParam : Nat) (lParam : Int)
    (tick : Nat) :
    LowLevelMouseProc g nCode wParam lParam tick =
      if 0 ≤ nCode ∧ wParam = WM_LBUTTONDOWN then
        if 2 ≤ clickCountAfterIncrement g tick then
          ({ g with should_exit := true, click_count := 0, last_click_time := tick },
            HookReturn.swallowed)
        else
          ({ g with click_count := clickCountAfterIncrement g tick, last_click_time := tick },
            HookReturn.callNextHook nCode wParam lParam)
      else (g, HookReturn.callNextHook nCode wParam lParam) := by
  unfold LowLevelMouseProc clickCountAfterIncrement
  by_cases h1 : 0 ≤ nCode
  · by_cases h2 : wParam = WM_LBUTTONDOWN
    · by_cases h : dwordSub tick g.last_click_time > 500 <;> simp [h1, h2, h]
    · simp [h1, h2]
  · simp [h1]

theorem LowLevelMouseProc_should_exit (g : OverlayState) (nCode : Int) (wParam : Nat)
    (lParam : Int) (tick : Nat) (h : g.should_exit = true) :
    (LowLevelMouseProc g nCode wParam lParam tick).1.should_exit = true := by
  rw [LowLevelMouseProc_eq]
  split_ifs <;> simp [h]

theorem LowLevelMouseProc_count_range (g : OverlayState) (nCode : Int) (wParam : Nat)
    (lParam : Int) (tick : Nat) (h : g.click_count = 0 ∨ g.click_count = 1) :
    (LowLevelMouseProc g nCode wParam lParam tick).1.click_count = 0 ∨
      (LowLevelMouseProc g nCode wParam lParam tick).1.click_count = 1 := by
  rw [LowLevelMouseProc_eq]
  unfold clickCountAfterIncrement
  by_cases hev : 0 ≤ nCode ∧ wParam = WM_LBUTTONDOWN
  · by_cases hgap : dwordSub tick g.last_click_time > 500
    · simp [hev, hgap]
    · rcases h with h | h <;> simp [hev, hgap, h]
  · simp [hev, h]

theorem window_procedure_should_exit (g : OverlayState) (imgui_handled : Bool)
    (message w_param : Nat) (l_param : Int) (h : g.should_exit = true) :
    (window_procedure g imgui_handled message w_param l_param).1.should_exit = true := by
  unfold window_procedure
  split_ifs <;> simp [h]

theorem window_procedure_click_count (g : OverlayState) (imgui_handled : Bool)
    (message w_param : Nat) (l_param : Int) :
    (window_procedure g imgui_handled message w_param l_param).1.click_count =
      g.click_count := by
  unfold window_procedure
  split_ifs <;> rfl

theorem UpdateOverlayFPS_should_exit (g : OverlayState) (now : Int) :
    (UpdateOverlayFPS g now).should_exit = g.should_exit := by
  unfold UpdateOverlayFPS
  simp only
  split_ifs <;> rfl

theorem UpdateOverlayFPS_click_count (g : OverlayState) (now : Int) :
    (UpdateOverlayFPS g now).click_count = g.click_count := by
  unfold UpdateOverlayFPS
  simp only
  split_ifs <;> rfl

theorem Call.run_should_exit (g : OverlayState) (c : Call)
    (h : g.should_exit = true) : (Call.run g c).should_exit = true := by
  cases c with
  | mouse nCode wParam lParam tick => exact LowLevelMouseProc_should_exit g _ _ _ _ h
  | window imgui_handled message w_param l_param =>
    exact window_procedure_should_exit g _ _ _ _ h
  | fps now => simpa [Call.run, UpdateOverlayFPS_should_exit] using h

theorem Call.run_count_range (g : OverlayState) (c : Call)
    (h : g.click_count = 0 ∨ g.click_count = 1) :
    (Call.run g c).click_count = 0 ∨ (Call.run g c).click_count = 1 := by
  cases c with
  | mouse nCode wParam lParam tick => exact LowLevelMouseProc_count_range g _ _ _ _ h
  | window imgui_handled message w_param l_param =>
    simpa [Call.run, window_procedure_click_count] using h
  | fps now => simpa [Call.run, UpdateOverlayFPS_click_count] using h

theorem runCalls_should_exit (cs : List Call)
    (g : OverlayState) (h : g.should_exit = true) :
    (runCalls g cs).should_exit = true := by
  induction cs generalizing g with
  | nil => exact h
  | cons c cs ih => exact ih _ (Call.run_should_exit g c h)

theorem runCalls_count_range (cs : List Call)
    (g : OverlayState) (h : g.click_count = 0 ∨ g.click_count = 1) :
    (runCalls g cs).click_count = 0 ∨ (runCalls g cs).click_count = 1 := by
  induction cs generalizing g with
  | nil => exact h
  | cons c cs ih => exact ih _ (Call.run_count_range g c h)

theorem runCalls_append (g : OverlayState)
    (cs ds : List Call) :
    runCalls g (cs ++ ds) = runCalls (runCalls g cs) ds := by
  simp [runCalls, List.foldl_append]

/-- C1 (as amended).  Feeding primary-button-down events stamped `ts` to
`LowLevelMouseProc` from the initial state, `should_exit` is true at the end if and
only if some two consecutive clicks are at most 500 ms apart (difference of the two
`DWORD` tick counts) with the click counter at most 1 going into the first of the
pair.  In a run of rapid clicks, begun by the first click of all or by a click more
than 500 ms after its predecessor, the flag is raised on the 2nd, 4th, 6th, ... click
of the run and on no other: raising the flag resets the counter, so no gap is needed
for it to be raised again. -/
theorem C1_exit_flag_iff_rapid_pair :
    (∀ ts : List Nat,
      (clicks g_overlay ts).should_exit = true ↔
        ∃ pre a b post, ts = pre ++ a :: b :: post ∧ dwordSub b a ≤ 500 ∧
          (clicks g_overlay pre).click_count ≤ 1) ∧
    (∀ (pre run : List Nat) (k : Nat),
      (∀ p r, pre.getLast? = some p → run.head? = some r → 500 < dwordSub r p) →
      List.Chain' (fun a b => dwordSub b a ≤ 500) run →
      k < run.length →
      (raisedAt (pre ++ run) (pre.length + k) = true ↔ k % 2 = 1)) := by
  refine ⟨fun ts => ?_, fun pre run k hfresh hchain hk => ?_⟩
  · rw [clicks_init_should_exit_iff, hasRapidPair_iff]
    constructor
    · rintro ⟨pre, a, b, post, h, hr⟩
      refine ⟨pre, a, b, post, h, hr, ?_⟩
      rcases clicks_count_range pre g_overlay (Or.inl rfl) with h0 | h1
      · rw [h0]; norm_num
      · rw [h1]
    · rintro ⟨pre, a, b, post, h, hr, -⟩
      exact ⟨pre, a, b, post, h, hr⟩
  · rw [raisedAt_append]
    cases run with
    | nil => simp at hk
    | cons r0 rest =>
      have hfirst : clickCountAfterIncrement (clicks g_overlay pre) r0 = 1 := by
        apply click_fresh
        intro p hp hrapid
        have := hfresh p r0 hp rfl
        unfold Rapid at hrapid
        omega
      cases k with
      | zero =>
        simp only [List.drop_zero, List.take_zero, clicks_nil, decide_eq_true_eq]
        rw [click_swallowed_iff, hfirst]
        norm_num
      | succ j =>
        have hj : j < rest.length := by simpa using hk
        obtain ⟨t, tl, hdrop⟩ : ∃ t tl, rest.drop j = t :: tl := by
          cases hd : rest.drop j with
          | nil =>
            have := congrArg List.length hd
            simp at this
            omega
          | cons t tl => exact ⟨t, tl, rfl⟩
        simp only [List.drop_succ_cons, List.take_succ_cons, hdrop, decide_eq_true_eq]
        rw [clicks_cons]
        have hstate : (click (clicks g_overlay pre) r0).1.click_count = ((1 : Nat) : Int) := by
          rw [click_eq, hfirst, if_neg (by norm_num)]
          rfl
        have hlast := click_last_click_time (clicks g_overlay pre) r0
        have hch : List.Chain Rapid (click (clicks g_overlay pre) r0).1.last_click_time rest := by
          rw [hlast]
          exact hchain
        rw [rapid_run_parity rest _ 1 j hstate le_rfl hch t tl hdrop]
        omega

/-- Witness of C1: two slow clicks, then a run of four rapid ones; the fourth click of
the run (position 3, counted from 0) raises the flag. -/
theorem C1_exit_flag_iff_rapid_pair_witness :
    (∀ p r, [0, 1000].getLast? = some p → [2000, 2100, 2200, 2300].head? = some r →
        500 < dwordSub r p) ∧
    List.Chain' (fun a b => dwordSub b a ≤ 500) [2000, 2100, 2200, 2300] ∧
    (raisedAt ([0, 1000] ++ [2000, 2100, 2200, 2300]) (([0, 1000] : List Nat).length + 3) = true ↔
      3 % 2 = 1) :=
  have h1 : ∀ p r, [0, 1000].getLast? = some p → [2000, 2100, 2200, 2300].head? = some r →
      500 < dwordSub r p := by
    intro p r hp hr
    simp at hp hr
    subst hp hr
    decide
  have h2 : List.Chain' (fun a b => dwordSub b a ≤ 500) [2000, 2100, 2200, 2300] := by
    simp only [List.chain'_cons, List.chain'_singleton, and_true]
    decide
  ⟨h1, h2, C1_exit_flag_iff_rapid_pair.2 [0, 1000] [2000, 2100, 2200, 2300] 3 h1 h2 (by decide)⟩

/-- Counterexample to C1 as stated: in the run of four rapid clicks at ticks 1000,
1100, 1200, 1300 (no gap of more than 500 ms anywhere) the flag is raised on the 2nd
click and raised again on the 4th. -/
theorem C1_counterexample :
    List.Chain' (fun a b => dwordSub b a ≤ 500) [1000, 1100, 1200, 1300] ∧
    raisedAt [1000, 1100, 1200, 1300] 1 = true ∧
    raisedAt [1000, 1100, 1200, 1300] 2 = false ∧
    raisedAt [1000, 1100, 1200, 1300] 3 = true := by
  simp only [List.chain'_cons, List.chain'_singleton, and_true]
  decide

/-- C10.  Starting from the initial state, along every interleaving of calls of
`LowLevelMouseProc`, `window_procedure` and `UpdateOverlayFPS`: once `should_exit` is
true it is true after any further calls; after every `LowLevelMouseProc` call
`click_count` is 0 or 1; and the test `click_count >= 2` succeeds exactly when the
incremented counter equals 2. -/
theorem C10_exit_sticky_counter_bounded (cs : List Call) :
    (∀ ds : List Call, (runCalls g_overlay cs).should_exit = true →
      (runCalls g_overlay (cs ++ ds)).should_exit = true) ∧
    (∀ (nCode : Int) (wParam : Nat) (lParam : Int) (tick : Nat),
      (runCalls g_overlay (cs ++ [Call.mouse nCode wParam lParam tick])).click_count = 0 ∨
      (runCalls g_overlay (cs ++ [Call.mouse nCode wParam lParam tick])).click_count = 1) ∧
    (∀ tick : Nat, 2 ≤ clickCountAfterIncrement (runCalls g_overlay cs) tick ↔
      clickCountAfterIncrement (runCalls g_overlay cs) tick = 2) := by
  refine ⟨fun ds h => ?_, fun nCode wParam lParam tick => ?_, fun tick => ?_⟩
  · rw [runCalls_append]
    exact runCalls_should_exit ds _ h
  · exact runCalls_count_range _ g_overlay (Or.inl rfl)
  · have h := runCalls_count_range cs g_overlay (Or.inl rfl)
    unfold clickCountAfterIncrement
    split_ifs <;> omega

/-- Witness of C10: a double click raises the flag; a frame-pacer tick, a key press and
a late third click leave it raised. -/
theorem C10_exit_sticky_counter_bounded_witness :
    (runCalls g_overlay
      [Call.mouse 0 WM_LBUTTONDOWN 0 1000, Call.mouse 0 WM_LBUTTONDOWN 0 1100]).should_exit
        = true ∧
    (runCalls g_overlay
      ([Call.mouse 0 WM_LBUTTONDOWN 0 1000, Call.mouse 0 WM_LBUTTONDOWN 0 1100] ++
        [Call.fps 5, Call.window false WM_KEYDOWN 65 0,
          Call.mouse 0 WM_LBUTTONDOWN 0 9000])).should_exit = true :=
  ⟨by decide,
    (C10_exit_sticky_counter_bounded
      [Call.mouse 0 WM_LBUTTONDOWN 0 1000, Call.mouse 0 WM_LBUTTONDOWN 0 1100]).1
      [Call.fps 5, Call.window false WM_KEYDOWN 65 0, Call.mouse 0 WM_LBUTTONDOWN 0 9000]
      (by decide)⟩

/-! ## Frame pacer -/

/-- A call before the window has elapsed only counts the frame (and rewrites the
placeholder over the text while nothing has been measured yet). -/
theorem UpdateOverlayFPS_of_lt (g : OverlayState) (now : Int)
    (h : elapsedMs now g.last_fps_update < 1000) :
    UpdateOverlayFPS g now =
      if g.fps_initialized = true then { g with frame_count := g.frame_count + 1 }
      else { g with frame_count := g.frame_count + 1, fps_text_cache := "FPS: ..." } := by
  unfold UpdateOverlayFPS
  have h' : ¬ (1000 ≤ elapsedMs now g.last_fps_update) := by omega
  simp only [h', if_false]
  cases hi : g.fps_initialized <;> simp

/-- A call that finds the window elapsed publishes a new measurement. -/
theorem UpdateOverlayFPS_of_ge (g : OverlayState) (now : Int)
    (h : 1000 ≤ elapsedMs now g.last_fps_update) :
    UpdateOverlayFPS g now =
      { g with
        overlay_fps := f32Div (f32OfInt (g.frame_count + 1))
          (f32Div (f32OfInt (elapsedMs now g.last_fps_update)) 1000)
        frame_count := 0
        last_fps_update := now
        fps_initialized := true
        fps_text_cache := "FPS: " ++ formatFixed1 (f32Div (f32OfInt (g.frame_count + 1))
          (f32Div (f32OfInt (elapsedMs now g.last_fps_update)) 1000)) } := by
  unfold UpdateOverlayFPS
  simp [h]

theorem ticks_nil (g : OverlayState) : ticks g [] = g := rfl

theorem ticks_cons (g : OverlayState) (t : Int) (ts : List Int) :
    ticks g (t :: ts) = ticks (UpdateOverlayFPS g t) ts := rfl

theorem ticks_append (g : OverlayState) (ts us : List Int) :
    ticks g (ts ++ us) = ticks (ticks g ts) us := by
  simp [ticks, List.foldl_append]

/-- While nothing has been measured the text is the placeholder: an invariant of
`UpdateOverlayFPS`. -/
theorem UpdateOverlayFPS_placeholder (g : OverlayState) (now : Int) :
    (UpdateOverlayFPS g now).fps_initialized = false →
      (UpdateOverlayFPS g now).fps_text_cache = "FPS: ..." := by
  by_cases hd : 1000 ≤ elapsedMs now g.last_fps_update
  · rw [UpdateOverlayFPS_of_ge g now hd]
    simp
  · rw [UpdateOverlayFPS_of_lt g now (by omega)]
    split_ifs with hi <;> simp [hi]

theorem ticks_placeholder (ts : List Int) (g : OverlayState)
    (h : g.fps_initialized = false → g.fps_text_cache = "FPS: ...") :
    (ticks g ts).fps_initialized = false → (ticks g ts).fps_text_cache = "FPS: ..." := by
  induction ts generalizing g with
  | nil => exact h
  | cons t ts ih => exact ih _ (UpdateOverlayFPS_placeholder g t)

/-- With enough recursion depth `ilog2Aux` brackets its argument between two
consecutive powers of two. -/
theorem ilog2Aux_spec (fuel n : Nat) (hn : 1 ≤ n) (hf : n ≤ fuel) :
    2 ^ ilog2Aux fuel n ≤ n ∧ n < 2 ^ (ilog2Aux fuel n + 1) := by
  induction fuel generalizing n with
  | zero => omega
  | succ fuel ih =>
    unfold ilog2Aux
    by_cases h2 : n < 2
    · simp only [h2, if_true]
      omega
    · simp only [h2, if_false]
      have := ih (n / 2) (by omega) (by omega)
      rw [pow_succ, pow_succ]
      omega

theorem ilog2_spec (n : Nat) (hn : 1 ≤ n) : 2 ^ ilog2 n ≤ n ∧ n < 2 ^ (ilog2 n + 1) :=
  ilog2Aux_spec n n hn le_rfl

/-- The value of `roundHalfEven` is within one half of the exact quotient. -/
theorem roundHalfEven_error (N D : Nat) (hD : 0 < D) :
    |((roundHalfEven N D : Nat) : ℚ) - (N : ℚ) / (D : ℚ)| ≤ 1 / 2 := by
  have hDq : (0 : ℚ) < D := by exact_mod_cast hD
  have hdiv : (N : ℚ) = (D : ℚ) * ((N / D : Nat) : ℚ) + ((N % D : Nat) : ℚ) := by
    exact_mod_cast (Nat.div_add_mod N D).symm
  have hr : N % D < D := Nat.mod_lt N hD
  have hrq : ((N % D : Nat) : ℚ) < D := by exact_mod_cast hr
  have hr0 : (0 : ℚ) ≤ ((N % D : Nat) : ℚ) := by positivity
  have hq : (N : ℚ) / D = ((N / D : Nat) : ℚ) + ((N % D : Nat) : ℚ) / D := by
    rw [hdiv]; field_simp; ring
  rw [hq, abs_le]
  unfold roundHalfEven
  simp only
  split_ifs with h1 h2 h3
  · have h1q : 2 * ((N % D : Nat) : ℚ) < D := by exact_mod_cast h1
    have : ((N % D : Nat) : ℚ) / D < 1 / 2 := by
      rw [div_lt_div_iff₀ hDq (by norm_num)]; linarith
    have h0 : (0 : ℚ) ≤ ((N % D : Nat) : ℚ) / D := by positivity
    constructor <;> linarith
  · have h2q : (D : ℚ) < 2 * ((N % D : Nat) : ℚ) := by exact_mod_cast h2
    have : (1 : ℚ) / 2 < ((N % D : Nat) : ℚ) / D := by
      rw [div_lt_div_iff₀ (by norm_num) hDq]; linarith
    have h1' : ((N % D : Nat) : ℚ) / D < 1 := by
      rw [div_lt_one hDq]; exact hrq
    push_cast
    constructor <;> linarith
  · have heq : 2 * (N % D) = D := by omega
    have heqq : 2 * ((N % D : Nat) : ℚ) = D := by exact_mod_cast heq
    have : ((N % D : Nat) : ℚ) / D = 1 / 2 := by
      rw [div_eq_div_iff (ne_of_gt hDq) (by norm_num)]; linarith
    constructor <;> linarith
  · have heq : 2 * (N % D) = D := by omega
    have heqq : 2 * ((N % D : Nat) : ℚ) = D := by exact_mod_cast heq
    have : ((N % D : Nat) : ℚ) / D = 1 / 2 := by
      rw [div_eq_div_iff (ne_of_gt hDq) (by norm_num)]; linarith
    push_cast
    constructor <;> linarith

/-- The value of `floorLog2` brackets the quotient between two consecutive powers of
two. -/
theorem floorLog2_spec (n d : Nat) (hn : 1 ≤ n) (hd : 1 ≤ d) :
    (2 : ℚ) ^ floorLog2 n d ≤ (n : ℚ) / d ∧
      (n : ℚ) / d < (2 : ℚ) ^ (floorLog2 n d + 1) := by
  obtain ⟨ha1, ha2⟩ := ilog2_spec n hn
  obtain ⟨hb1, hb2⟩ := ilog2_spec d hd
  have hdq : (0 : ℚ) < d := by exact_mod_cast hd
  have hnq : (0 : ℚ) < n := by exact_mod_cast hn
  have ha1q : (2 : ℚ) ^ ilog2 n ≤ n := by exact_mod_cast ha1
  have ha2q : (n : ℚ) < 2 ^ (ilog2 n + 1) := by exact_mod_cast ha2
  have hb1q : (2 : ℚ) ^ ilog2 d ≤ d := by exact_mod_cast hb1
  have hb2q : (d : ℚ) < 2 ^ (ilog2 d + 1) := by exact_mod_cast hb2
  have hpa : (0 : ℚ) < 2 ^ ilog2 n := by positivity
  have hpb : (0 : ℚ) < 2 ^ ilog2 d := by positivity
  have he0 : (2 : ℚ) ^ ((ilog2 n : Int) - (ilog2 d : Int)) = 2 ^ ilog2 n / 2 ^ ilog2 d := by
    rw [zpow_sub₀ (by norm_num), zpow_natCast, zpow_natCast]
  -- the test made by `floorLog2`, as an inequality of rationals
  have hreach : (if 0 ≤ (ilog2 n : Int) - (ilog2 d : Int)
        then decide (2 ^ ((ilog2 n : Int) - (ilog2 d : Int)).toNat * d ≤ n)
        else decide (d ≤ 2 ^ (-((ilog2 n : Int) - (ilog2 d : Int))).toNat * n)) = true ↔
      (2 : ℚ) ^ ilog2 n / 2 ^ ilog2 d ≤ (n : ℚ) / d := by
    rw [div_le_div_iff₀ hpb hdq]
    by_cases hab : 0 ≤ (ilog2 n : Int) - (ilog2 d : Int)
    · have hle : ilog2 d ≤ ilog2 n := by omega
      have ht : ((ilog2 n : Int) - (ilog2 d : Int)).toNat = ilog2 n - ilog2 d := by omega
      simp only [hab, if_true, decide_eq_true_eq, ht]
      have hsplit : (2 : ℚ) ^ ilog2 n = 2 ^ (ilog2 n - ilog2 d) * 2 ^ ilog2 d := by
        rw [← pow_add, Nat.sub_add_cancel hle]
      rw [hsplit]
      constructor
      · intro h
        have hq : ((2 : ℚ) ^ (ilog2 n - ilog2 d)) * d ≤ n := by exact_mod_cast h
        nlinarith
      · intro h
        have hq : ((2 : ℚ) ^ (ilog2 n - ilog2 d)) * d ≤ n := by
          by_contra hc
          push_neg at hc
          nlinarith
        exact_mod_cast hq
    · have hlt : ilog2 n < ilog2 d := by omega
      have ht : (-((ilog2 n : Int) - (ilog2 d : Int))).toNat = ilog2 d - ilog2 n := by omega
      simp only [hab, if_false, decide_eq_true_eq, ht]
      have hsplit : (2 : ℚ) ^ ilog2 d = 2 ^ (ilog2 d - ilog2 n) * 2 ^ ilog2 n := by
        rw [← pow_add, Nat.sub_add_cancel (le_of_lt hlt)]
      rw [hsplit]
      constructor
      · intro h
        have hq : (d : ℚ) ≤ ((2 : ℚ) ^ (ilog2 d - ilog2 n)) * n := by exact_mod_cast h
        nlinarith
      · intro h
        have hq : (d : ℚ) ≤ ((2 : ℚ) ^ (ilog2 d - ilog2 n)) * n := by
          by_contra hc
          push_neg at hc
          nlinarith
        exact_mod_cast hq
  unfold floorLog2
  simp only
  by_cases hr : (if 0 ≤ (ilog2 n : Int) - (ilog2 d : Int)
        then decide (2 ^ ((ilog2 n : Int) - (ilog2 d : Int)).toNat * d ≤ n)
        else decide (d ≤ 2 ^ (-((ilog2 n : Int) - (ilog2 d : Int))).toNat * n)) = true
  · rw [if_pos hr]
    refine ⟨by rw [he0]; exact hreach.1 hr, ?_⟩
    rw [zpow_add_one₀ (by norm_num), he0, div_mul_eq_mul_div, div_lt_div_iff₀ hdq hpb]
    rw [pow_succ] at ha2q
    nlinarith
  · rw [if_neg hr]
    have hnot : ¬ ((2 : ℚ) ^ ilog2 n / 2 ^ ilog2 d ≤ (n : ℚ) / d) := fun h => hr (hreach.2 h)
    push_neg at hnot
    refine ⟨?_, by rw [sub_add_cancel, he0]; exact hnot⟩
    rw [zpow_sub_one₀ (by norm_num), he0, div_mul_eq_mul_div, div_le_div_iff₀ hpb hdq]
    rw [pow_succ] at hb2q
    have : (2 : ℚ)⁻¹ = 1 / 2 := by norm_num
    rw [this]
    nlinarith

/-- The significand and exponent of `f32Significand` denote a number within
`2 ^ (-24)`, relatively, of the quotient. -/
theorem f32Significand_error (n d : Nat) (hn : 1 ≤ n) (hd : 1 ≤ d) :
    |((f32Significand n d).1 : ℚ) * (2 : ℚ) ^ (f32Significand n d).2 - (n : ℚ) / d| ≤
      (n : ℚ) / d / 2 ^ 24 := by
  obtain ⟨hlo, -⟩ := floorLog2_spec n d hn hd
  have hdq : (0 : ℚ) < d := by exact_mod_cast hd
  have hk : (0 : ℚ) < (2 : ℚ) ^ (floorLog2 n d - 23) := by positivity
  -- the significand is the rounding of `n / d` scaled by `2 ^ (-k)`
  have hm : |((f32Significand n d).1 : ℚ) - (n : ℚ) / d / (2 : ℚ) ^ (floorLog2 n d - 23)|
      ≤ 1 / 2 := by
    unfold f32Significand
    simp only
    by_cases hk0 : 0 ≤ floorLog2 n d - 23
    · rw [if_pos hk0]
      have hpos : 0 < d * 2 ^ (floorLog2 n d - 23).toNat := by positivity
      have h := roundHalfEven_error n (d * 2 ^ (floorLog2 n d - 23).toNat) hpos
      have hz : (2 : ℚ) ^ (floorLog2 n d - 23) = 2 ^ (floorLog2 n d - 23).toNat := by
        rw [← zpow_natCast, Int.toNat_of_nonneg hk0]
      rw [hz, div_div]
      push_cast at h
      exact h
    · rw [if_neg hk0]
      have h := roundHalfEven_error (n * 2 ^ (-(floorLog2 n d - 23)).toNat) d hd
      have hz : (2 : ℚ) ^ (floorLog2 n d - 23) = (2 ^ (-(floorLog2 n d - 23)).toNat)⁻¹ := by
        rw [← zpow_natCast, Int.toNat_of_nonneg (by omega), zpow_neg, inv_inv]
      rw [hz, div_inv_eq_mul, div_mul_eq_mul_div]
      push_cast at h
      exact h
  have hfact : ((f32Significand n d).1 : ℚ) * (2 : ℚ) ^ (f32Significand n d).2 - (n : ℚ) / d =
      (((f32Significand n d).1 : ℚ) - (n : ℚ) / d / (2 : ℚ) ^ (floorLog2 n d - 23)) *
        (2 : ℚ) ^ (floorLog2 n d - 23) := by
    have h2 : (f32Significand n d).2 = floorLog2 n d - 23 := rfl
    rw [h2]
    field_simp
    ring
  rw [hfact, abs_mul, abs_of_pos hk]
  have hpow : (2 : ℚ) ^ (floorLog2 n d - 23) = (2 : ℚ) ^ floorLog2 n d / 2 ^ 23 := by
    rw [zpow_sub₀ (by norm_num)]
    norm_num
  calc |((f32Significand n d).1 : ℚ) - (n : ℚ) / d / (2 : ℚ) ^ (floorLog2 n d - 23)| *
        (2 : ℚ) ^ (floorLog2 n d - 23)
      ≤ 1 / 2 * (2 : ℚ) ^ (floorLog2 n d - 23) := by
        exact mul_le_mul_of_nonneg_right hm (le_of_lt hk)
    _ = (2 : ℚ) ^ floorLog2 n d / 2 ^ 24 := by rw [hpow]; ring
    _ ≤ (n : ℚ) / d / 2 ^ 24 := by
        exact div_le_div_of_nonneg_right hlo (by positivity)

/-- Rounding to `float` moves a number by at most `2 ^ (-24)` of its magnitude. -/
theorem f32Round_error (x : ℚ) : |f32Round x - x| ≤ |x| / 2 ^ 24 := by
  unfold f32Round
  by_cases hx : x = 0
  · simp [hx]
  · rw [if_neg hx]
    have hnum : x.num ≠ 0 := by rwa [Ne, Rat.num_eq_zero]
    have hn : 1 ≤ x.num.natAbs := Nat.one_le_iff_ne_zero.2 (by simpa using hnum)
    have hd : 1 ≤ x.den := x.den_pos
    have habs : |x| = (x.num.natAbs : ℚ) / x.den := by
      conv_lhs => rw [← Rat.num_div_den x]
      rw [abs_div, Nat.abs_cast]
      congr 1
      rw [Nat.cast_natAbs, Int.cast_abs]
    have h := f32Significand_error x.num.natAbs x.den hn hd
    rw [← habs] at h
    simp only
    by_cases hneg : x < 0
    · rw [if_pos hneg]
      have hax : |x| = -x := abs_of_neg hneg
      rw [hax] at h ⊢
      rw [show -(((f32Significand x.num.natAbs x.den).1 : ℚ) *
          (2 : ℚ) ^ (f32Significand x.num.natAbs x.den).2) - x =
        -(((f32Significand x.num.natAbs x.den).1 : ℚ) *
          (2 : ℚ) ^ (f32Significand x.num.natAbs x.den).2 - -x) by ring, abs_neg]
      exact h
    · rw [if_neg hneg]
      have hax : |x| = x := abs_of_nonneg (not_lt.1 hneg)
      rw [hax] at h ⊢
      exact h

/-- The standard model of a rounded operation: the result is the exact one times
`1 + δ` with `|δ| ≤ 2 ^ (-24)`. -/
theorem f32Round_factor (x : ℚ) :
    ∃ δ : ℚ, |δ| ≤ 1 / 2 ^ 24 ∧ f32Round x = x * (1 + δ) := by
  by_cases hx : x = 0
  · exact ⟨0, by norm_num, by simp [hx, f32Round]⟩
  · refine ⟨(f32Round x - x) / x, ?_, by field_simp⟩
    rw [abs_div, div_le_iff₀ (abs_pos.2 hx)]
    have := f32Round_error x
    calc |f32Round x - x| ≤ |x| / 2 ^ 24 := this
      _ = 1 / 2 ^ 24 * |x| := by ring

/-- Two products of two factors each within `2 ^ (-24)` of 1 have a quotient within
`5 * 2 ^ (-24)` of 1. -/
theorem ratio_near_one (a b c e : ℚ) (ha : |a| ≤ 1 / 2 ^ 24) (hb : |b| ≤ 1 / 2 ^ 24)
    (hc : |c| ≤ 1 / 2 ^ 24) (he : |e| ≤ 1 / 2 ^ 24) :
    0 < (1 + b) * (1 + c) ∧
      |(1 + a) * (1 + e) / ((1 + b) * (1 + c)) - 1| ≤ 5 / 2 ^ 24 := by
  rw [abs_le] at ha hb hc he
  have hR : (1 - 1 / 2 ^ 24 : ℚ) * (1 - 1 / 2 ^ 24) ≤ (1 + b) * (1 + c) :=
    mul_le_mul (by linarith) (by linarith) (by norm_num) (by linarith)
  have hR' : (1 + b) * (1 + c) ≤ (1 + 1 / 2 ^ 24 : ℚ) * (1 + 1 / 2 ^ 24) :=
    mul_le_mul (by linarith) (by linarith) (by linarith) (by norm_num)
  have hP : (1 - 1 / 2 ^ 24 : ℚ) * (1 - 1 / 2 ^ 24) ≤ (1 + a) * (1 + e) :=
    mul_le_mul (by linarith) (by linarith) (by norm_num) (by linarith)
  have hP' : (1 + a) * (1 + e) ≤ (1 + 1 / 2 ^ 24 : ℚ) * (1 + 1 / 2 ^ 24) :=
    mul_le_mul (by linarith) (by linarith) (by linarith) (by norm_num)
  have hpos : (0 : ℚ) < (1 + b) * (1 + c) := lt_of_lt_of_le (by norm_num) hR
  refine ⟨hpos, ?_⟩
  rw [div_sub_one (ne_of_gt hpos), abs_div, abs_of_pos hpos, div_le_iff₀ hpos, abs_le]
  constructor
  · nlinarith
  · nlinarith

/-- The `float` computation of `n / (d / 1000.0f)` is within `5 * 2 ^ (-24)`,
relatively, of the exact quotient. -/
theorem fps_error (n d : Int) (hd : 1000 ≤ d) :
    |f32Div (f32OfInt n) (f32Div (f32OfInt d) 1000) - (n : ℚ) / ((d : ℚ) / 1000)| ≤
      5 / 2 ^ 24 * |(n : ℚ) / ((d : ℚ) / 1000)| := by
  have hdq : (0 : ℚ) < d := by exact_mod_cast (by omega : (0 : Int) < d)
  unfold f32Div f32OfInt
  obtain ⟨a, ha, hA⟩ := f32Round_factor (n : ℚ)
  obtain ⟨b, hb, hB⟩ := f32Round_factor (d : ℚ)
  rw [hA, hB]
  obtain ⟨c, hc, hC⟩ := f32Round_factor ((d : ℚ) * (1 + b) / 1000)
  rw [hC]
  obtain ⟨e, he, hE⟩ :=
    f32Round_factor ((n : ℚ) * (1 + a) / ((d : ℚ) * (1 + b) / 1000 * (1 + c)))
  rw [hE]
  obtain ⟨hpos, hratio⟩ := ratio_near_one a b c e ha hb hc he
  have hb0 : (1 + b) ≠ 0 := fun h => by rw [h, zero_mul] at hpos; exact lt_irrefl _ hpos
  have hc0 : (1 + c) ≠ 0 := fun h => by rw [h, mul_zero] at hpos; exact lt_irrefl _ hpos
  have hfact : (n : ℚ) * (1 + a) / ((d : ℚ) * (1 + b) / 1000 * (1 + c)) * (1 + e) -
      (n : ℚ) / ((d : ℚ) / 1000) =
      (n : ℚ) / ((d : ℚ) / 1000) * ((1 + a) * (1 + e) / ((1 + b) * (1 + c)) - 1) := by
    field_simp
    ring
  rw [hfact, abs_mul, mul_comm]
  exact mul_le_mul_of_nonneg_right hratio (abs_nonneg _)

/-- Numerator and denominator of a fraction in lowest terms. -/
theorem num_den_of_frac (x : ℚ) (p q : Nat) (hq : 0 < q) (hcop : Nat.Coprime p q)
    (hx : x = (p : ℚ) / (q : ℚ)) : x.num.natAbs = p ∧ x.den = q := by
  have hx' : x = ((p : Int) : ℚ) / ((q : Int) : ℚ) := by
    rw [hx, Int.cast_natCast, Int.cast_natCast]
  have hq' : (0 : Int) < (q : Int) := by exact_mod_cast hq
  have hc : Nat.Coprime (p : Int).natAbs (q : Int).natAbs := by simpa using hcop
  have h1 := Rat.num_div_eq_of_coprime hq' hc
  have h2 := Rat.den_div_eq_of_coprime hq' hc
  rw [← hx'] at h1 h2
  constructor
  · rw [h1]; simp
  · exact_mod_cast h2

/-- Evaluation of `f32Round` at a positive fraction in lowest terms. -/
theorem f32Round_of_frac (x : ℚ) (p q m : Nat) (k : Int) (hq : 0 < q) (hp : 0 < p)
    (hcop : Nat.Coprime p q) (hx : x = (p : ℚ) / (q : ℚ))
    (hs : f32Significand p q = (m, k)) : f32Round x = (m : ℚ) * (2 : ℚ) ^ k := by
  obtain ⟨hn, hd⟩ := num_den_of_frac x p q hq hcop hx
  have hpos : 0 < x := by
    rw [hx]
    have : (0 : ℚ) < p := by exact_mod_cast hp
    have : (0 : ℚ) < q := by exact_mod_cast hq
    positivity
  unfold f32Round
  rw [if_neg (ne_of_gt hpos)]
  simp only [hn, hd, hs]
  rw [if_neg (not_lt.2 (le_of_lt hpos))]

/-- Evaluation of `formatFixed1` at a positive fraction in lowest terms. -/
theorem formatFixed1_of_frac (x : ℚ) (p q t : Nat) (hq : 0 < q) (hp : 0 < p)
    (hcop : Nat.Coprime p q) (hx : x = (p : ℚ) / (q : ℚ))
    (ht : roundHalfEven (p * 10) q = t) :
    formatFixed1 x = toString (t / 10) ++ "." ++ toString (t % 10) := by
  obtain ⟨hn, hd⟩ := num_den_of_frac x p q hq hcop hx
  have hpos : 0 < x := by
    rw [hx]
    have : (0 : ℚ) < p := by exact_mod_cast hp
    have : (0 : ℚ) < q := by exact_mod_cast hq
    positivity
  unfold formatFixed1
  simp only [hn, hd, ht]
  rw [if_neg (not_lt.2 (le_of_lt hpos))]
  rfl

/-- The text of `formatFixed1` is a sign, a decimal integer part, a point and one
decimal digit, and the number it spells is within one twentieth of the value. -/
theorem formatFixed1_spec (x : ℚ) :
    ∃ q r : Nat, r < 10 ∧
      formatFixed1 x = (if x < 0 then "-" else "") ++ toString q ++ "." ++ toString r ∧
      abs ((q : ℚ) + (r : ℚ) / 10 - abs x) ≤ 1 / 20 := by
  refine ⟨roundHalfEven (x.num.natAbs * 10) x.den / 10,
    roundHalfEven (x.num.natAbs * 10) x.den % 10, Nat.mod_lt _ (by norm_num), rfl, ?_⟩
  have habs : |x| = (x.num.natAbs : ℚ) / x.den := by
    conv_lhs => rw [← Rat.num_div_den x]
    rw [abs_div, Nat.abs_cast]
    congr 1
    rw [Nat.cast_natAbs, Int.cast_abs]
  have h := roundHalfEven_error (x.num.natAbs * 10) x.den x.den_pos
  have hsplit : ((roundHalfEven (x.num.natAbs * 10) x.den : Nat) : ℚ) =
      10 * ((roundHalfEven (x.num.natAbs * 10) x.den / 10 : Nat) : ℚ) +
        ((roundHalfEven (x.num.natAbs * 10) x.den % 10 : Nat) : ℚ) := by
    exact_mod_cast (Nat.div_add_mod (roundHalfEven (x.num.natAbs * 10) x.den) 10).symm
  have hden : (0 : ℚ) < x.den := by exact_mod_cast x.den_pos
  rw [habs]
  rw [hsplit] at h
  push_cast at h
  rw [abs_le] at h ⊢
  have hten : (x.num.natAbs : ℚ) * 10 / x.den = 10 * ((x.num.natAbs : ℚ) / x.den) := by ring
  rw [hten] at h
  constructor <;> linarith [h.1, h.2]

/-- Seventy-nine frames in 1250 ms: the `float` nearest to 63.2, shown as `63.2`. -/
theorem fps_point_1 :
    f32Div (f32OfInt 79) (f32Div (f32OfInt 1250) 1000) = 16567501 / 262144 ∧
      formatFixed1 (16567501 / 262144) = "63.2" := by
  have hA : f32Round (((79 : Int) : ℚ)) = 79 := by
    rw [f32Round_of_frac (((79 : Int) : ℚ)) 79 1 10354688 (-17)
      (by norm_num) (by norm_num) (by norm_num) (by norm_num) (by decide)]
    norm_num
  have hB : f32Round (((1250 : Int) : ℚ)) = 1250 := by
    rw [f32Round_of_frac (((1250 : Int) : ℚ)) 1250 1 10240000 (-13)
      (by norm_num) (by norm_num) (by norm_num) (by norm_num) (by decide)]
    norm_num
  have hT : f32Round ((1250 : ℚ) / 1000) = 5 / 4 := by
    rw [f32Round_of_frac ((1250 : ℚ) / 1000) 5 4 10485760 (-23)
      (by norm_num) (by norm_num) (by norm_num) (by norm_num) (by decide)]
    norm_num
  have hF : f32Round ((79 : ℚ) / (5 / 4)) = 16567501 / 262144 := by
    rw [f32Round_of_frac ((79 : ℚ) / (5 / 4)) 316 5 16567501 (-18)
      (by norm_num) (by norm_num) (by norm_num) (by norm_num) (by decide)]
    norm_num
  refine ⟨?_, ?_⟩
  · unfold f32Div f32OfInt
    rw [hB, hT, hA, hF]
  · rw [formatFixed1_of_frac (16567501 / 262144) 16567501 262144 632
      (by norm_num) (by norm_num) (by norm_num) (by norm_num) (by decide)]
    decide

/-- One frame in 3000 ms: the `float` nearest to one third, shown as `0.3`. -/
theorem fps_point_2 :
    f32Div (f32OfInt 1) (f32Div (f32OfInt 3000) 1000) = 11184811 / 33554432 ∧
      formatFixed1 (11184811 / 33554432) = "0.3" := by
  have hA : f32Round (((1 : Int) : ℚ)) = 1 := by
    rw [f32Round_of_frac (((1 : Int) : ℚ)) 1 1 8388608 (-23)
      (by norm_num) (by norm_num) (by norm_num) (by norm_num) (by decide)]
    norm_num
  have hB : f32Round (((3000 : Int) : ℚ)) = 3000 := by
    rw [f32Round_of_frac (((3000 : Int) : ℚ)) 3000 1 12288000 (-12)
      (by norm_num) (by norm_num) (by norm_num) (by norm_num) (by decide)]
    norm_num
  have hT : f32Round ((3000 : ℚ) / 1000) = 3 := by
    rw [f32Round_of_frac ((3000 : ℚ) / 1000) 3 1 12582912 (-22)
      (by norm_num) (by norm_num) (by norm_num) (by norm_num) (by decide)]
    norm_num
  have hF : f32Round ((1 : ℚ) / (3)) = 11184811 / 33554432 := by
    rw [f32Round_of_frac ((1 : ℚ) / (3)) 1 3 11184811 (-25)
      (by norm_num) (by norm_num) (by norm_num) (by norm_num) (by decide)]
    norm_num
  refine ⟨?_, ?_⟩
  · unfold f32Div f32OfInt
    rw [hB, hT, hA, hF]
  · rw [formatFixed1_of_frac (11184811 / 33554432) 11184811 33554432 3
      (by norm_num) (by norm_num) (by norm_num) (by norm_num) (by decide)]
    decide

/-- One hundred and forty-five frames in 1007 ms: about 143.99, shown as `144.0`. -/
theorem fps_point_3 :
    f32Div (f32OfInt 145) (f32Div (f32OfInt 1007) 1000) = 1179583 / 8192 ∧
      formatFixed1 (1179583 / 8192) = "144.0" := by
  have hA : f32Round (((145 : Int) : ℚ)) = 145 := by
    rw [f32Round_of_frac (((145 : Int) : ℚ)) 145 1 9502720 (-16)
      (by norm_num) (by norm_num) (by norm_num) (by norm_num) (by decide)]
    norm_num
  have hB : f32Round (((1007 : Int) : ℚ)) = 1007 := by
    rw [f32Round_of_frac (((1007 : Int) : ℚ)) 1007 1 16498688 (-14)
      (by norm_num) (by norm_num) (by norm_num) (by norm_num) (by decide)]
    norm_num
  have hT : f32Round ((1007 : ℚ) / 1000) = 263979 / 262144 := by
    rw [f32Round_of_frac ((1007 : ℚ) / 1000) 1007 1000 8447328 (-23)
      (by norm_num) (by norm_num) (by norm_num) (by norm_num) (by decide)]
    norm_num
  have hF : f32Round ((145 : ℚ) / (263979 / 262144)) = 1179583 / 8192 := by
    rw [f32Round_of_frac ((145 : ℚ) / (263979 / 262144)) 38010880 263979 9436664 (-16)
      (by norm_num) (by norm_num) (by norm_num) (by norm_num) (by decide)]
    norm_num
  refine ⟨?_, ?_⟩
  · unfold f32Div f32OfInt
    rw [hB, hT, hA, hF]
  · rw [formatFixed1_of_frac (1179583 / 8192) 1179583 8192 1440
      (by norm_num) (by norm_num) (by norm_num) (by norm_num) (by decide)]
    decide

theorem f32Round_one : f32Round 1 = 1 := by
  have hs : f32Significand 1 1 = (8388608, -23) := by decide
  simp only [f32Round, one_ne_zero, if_false, Rat.num_one, Rat.den_one, Int.natAbs_one, hs]
  norm_num

theorem f32Round_sixty : f32Round 60 = 60 := by
  have hs : f32Significand 60 1 = (15728640, -18) := by decide
  have hn : (60 : ℚ).num.natAbs = 60 := rfl
  have hd : (60 : ℚ).den = 1 := rfl
  simp only [f32Round, hn, hd, hs]
  norm_num

theorem f32Round_thousand : f32Round 1000 = 1000 := by
  have hs : f32Significand 1000 1 = (16384000, -14) := by decide
  have hn : (1000 : ℚ).num.natAbs = 1000 := rfl
  have hd : (1000 : ℚ).den = 1 := rfl
  simp only [f32Round, hn, hd, hs]
  norm_num

/-- The `float` computation `60 / (1000 / 1000.0f)` is exact. -/
theorem fps_sixty : f32Div (f32OfInt 60) (f32Div (f32OfInt 1000) 1000) = 60 := by
  have h1 : f32OfInt 1000 = 1000 := by
    unfold f32OfInt; norm_num [f32Round_thousand]
  have h2 : f32OfInt 60 = 60 := by
    unfold f32OfInt; norm_num [f32Round_sixty]
  rw [h1, h2]
  unfold f32Div
  norm_num [f32Round_one, f32Round_sixty]

theorem formatFixed1_sixty : formatFixed1 60 = "60.0" := by
  have hn : (60 : ℚ).num.natAbs = 60 := rfl
  have hd : (60 : ℚ).den = 1 := rfl
  have hneg : ¬ ((60 : ℚ) < 0) := by norm_num
  simp only [formatFixed1, hn, hd, hneg, if_false]
  decide

theorem elapsedMs_add (start c : Int) (hc : 0 ≤ c) :
    elapsedMs (start + c) start = c / 1000000 := by
  unfold elapsedMs TICKS_PER_MS
  rw [add_sub_cancel_left]
  exact Int.tdiv_eq_ediv hc (by norm_num)

/-- Calls made before the first window has elapsed only count frames. -/
theorem ticks_before_window (ts : List Int) (g : OverlayState)
    (hi : g.fps_initialized = false) (ht : g.fps_text_cache = "FPS: ...")
    (h : ∀ t ∈ ts, elapsedMs t g.last_fps_update < 1000) :
    ticks g ts = { g with frame_count := g.frame_count + (ts.length : Int) } := by
  induction ts generalizing g with
  | nil => simp [ticks_nil]
  | cons t ts ih =>
    have h0 := h t (List.mem_cons_self t ts)
    rw [ticks_cons, UpdateOverlayFPS_of_lt g t h0]
    simp only [hi, Bool.false_eq_true, if_false]
    rw [ih]
    · simp only [List.length_cons, Nat.cast_add, Nat.cast_one, ← ht]
      congr 1
      ring
    · rfl
    · rfl
    · intro u hu
      exact h u (List.mem_cons_of_mem t hu)

/-- Sixty calls from a fresh state, fifty-nine inside the window and the sixtieth
exactly 1000 ms after the start, measure 60 frames per second. -/
theorem ticks_sixty_of_window (start : Int) (ts : List Int) (now : Int)
    (hlen : ts.length = 59) (hin : ∀ t ∈ ts, elapsedMs t start < 1000)
    (hlast : elapsedMs now start = 1000) :
    ticks (startClock g_overlay start) (ts ++ [now]) =
      { startClock g_overlay start with
        overlay_fps := 60
        frame_count := 0
        last_fps_update := now
        fps_initialized := true
        fps_text_cache := "FPS: 60.0" } := by
  have hfirst := ticks_before_window ts (startClock g_overlay start) rfl rfl hin
  rw [ticks_append, hfirst, ticks_cons, ticks_nil, UpdateOverlayFPS_of_ge]
  · simp only [startClock, g_overlay, hlast, hlen]
    have h60 : ((0 : Int) + ((59 : Nat) : Int) + 1) = 60 := by norm_num
    rw [h60, fps_sixty, formatFixed1_sixty]
    rfl
  · show 1000 ≤ elapsedMs now start
    rw [hlast]

/-- The sixty uniformly spread ticks: fifty-nine inside the window, the sixtieth
exactly 1000 ms after the start. -/
theorem ticks_sixty (start : Int) :
    ticks (startClock g_overlay start) (uniformTicks start 60 1000) =
      { startClock g_overlay start with
        overlay_fps := 60
        frame_count := 0
        last_fps_update := start + 1000000000
        fps_initialized := true
        fps_text_cache := "FPS: 60.0" } := by
  have hsplit : uniformTicks start 60 1000 =
      (List.range 59).map
        (fun (i : Nat) => start + (((i : Int) + 1) * 1000 * TICKS_PER_MS) / ((60 : Nat) : Int)) ++
      [start + 1000000000] := by
    unfold uniformTicks
    rw [show (60 : Nat) = 59 + 1 from rfl, List.range_succ, List.map_append]
    simp [TICKS_PER_MS]
  rw [hsplit]
  apply ticks_sixty_of_window
  · simp
  · intro t ht
    rw [List.mem_map] at ht
    obtain ⟨i, hi, rfl⟩ := ht
    rw [List.mem_range] at hi
    rw [elapsedMs_add]
    · simp only [TICKS_PER_MS]
      push_cast
      omega
    · simp only [TICKS_PER_MS]
      push_cast
      omega
  · rw [elapsedMs_add _ _ (by norm_num)]
    norm_num

/-- As long as every call so far has found less than 1000 ms elapsed, nothing has
been measured and the text is the placeholder. -/
theorem ticks_take_placeholder (ts : List Int) (g : OverlayState)
    (hi : g.fps_initialized = false) (ht : g.fps_text_cache = "FPS: ...")
    (h : ∀ (i : Nat) (t : Int), ts[i]? = some t →
      elapsedMs t (ticks g (ts.take i)).last_fps_update < 1000)
    (k : Nat) :
    (ticks g (ts.take k)).fps_text_cache = "FPS: ..." ∧
      (ticks g (ts.take k)).fps_initialized = false := by
  induction ts generalizing g k with
  | nil => simp [ticks_nil, hi, ht]
  | cons t ts ih =>
    cases k with
    | zero => simp [ticks_nil, hi, ht]
    | succ k =>
      have h0 : elapsedMs t g.last_fps_update < 1000 := by
        simpa [ticks_nil] using h 0 t (by simp)
      rw [List.take_succ_cons, ticks_cons]
      apply ih
      · rw [UpdateOverlayFPS_of_lt g t h0]
        simp [hi]
      · rw [UpdateOverlayFPS_of_lt g t h0]
        simp [hi]
      · intro i u hu
        have := h (i + 1) u (by simpa using hu)
        rwa [List.take_succ_cons, ticks_cons] at this

/-- A call that finds the window elapsed, from a state with epoch `0` as last update:
the value and the text it publishes. -/
theorem UpdateOverlayFPS_measure (fc now d : Int) (hd : elapsedMs now 0 = d)
    (h : 1000 ≤ d) :
    (UpdateOverlayFPS { frame_count := fc } now).overlay_fps =
        f32Div (f32OfInt (fc + 1)) (f32Div (f32OfInt d) 1000) ∧
      (UpdateOverlayFPS { frame_count := fc } now).fps_text_cache =
        "FPS: " ++ formatFixed1 (f32Div (f32OfInt (fc + 1)) (f32Div (f32OfInt d) 1000)) := by
  have hge : 1000 ≤ elapsedMs now ({ frame_count := fc } : OverlayState).last_fps_update := by
    show 1000 ≤ elapsedMs now 0
    rw [hd]; exact h
  rw [UpdateOverlayFPS_of_ge _ now hge]
  show f32Div (f32OfInt (fc + 1)) (f32Div (f32OfInt (elapsedMs now 0)) 1000) = _ ∧
    "FPS: " ++ formatFixed1 (f32Div (f32OfInt (fc + 1))
      (f32Div (f32OfInt (elapsedMs now 0)) 1000)) = _
  rw [hd]
  exact ⟨rfl, rfl⟩

/-- C3.  A call of `UpdateOverlayFPS` that finds `d >= 1000` whole milliseconds elapsed
since `last_fps_update` sets `overlay_fps` to `(frame_count + 1) / (d / 1000)` computed
in `float` arithmetic: the value is within `5 * 2 ^ (-24)`, relatively, of the exact
quotient.  The call resets `frame_count` to 0, sets `last_fps_update` to the current
time, sets `fps_initialized`, and rewrites `fps_text_cache` to `"FPS: "` followed by
`overlay_fps` with one decimal: a sign if negative, the decimal integer part, a point
and one digit, spelling a number within one twentieth of `overlay_fps`.  In particular
60 ticks spread uniformly over 1000 ms from a fresh state (tick `i` falling
`i * 1000 / 60` ms after the start, or more generally fifty-nine ticks inside the
window and the sixtieth 1000 ms after the start) give an fps within 0.1 of 60.0 and
the text `"FPS: 60.0"`; 79 frames in 1250 ms give `"FPS: 63.2"`, 1 frame in 3000 ms
gives `"FPS: 0.3"`, and 145 frames in 1007 ms give `"FPS: 144.0"`. -/
theorem C3_elapsed_window_publishes_fps :
    (∀ (g : OverlayState) (now : Int), 1000 ≤ elapsedMs now g.last_fps_update →
      (UpdateOverlayFPS g now).overlay_fps =
        f32Div (f32OfInt (g.frame_count + 1))
          (f32Div (f32OfInt (elapsedMs now g.last_fps_update)) 1000) ∧
      abs ((UpdateOverlayFPS g now).overlay_fps -
          ((g.frame_count + 1 : Int) : ℚ) /
            (((elapsedMs now g.last_fps_update : Int) : ℚ) / 1000))
        ≤ 5 / 2 ^ 24 *
          abs (((g.frame_count + 1 : Int) : ℚ) /
            (((elapsedMs now g.last_fps_update : Int) : ℚ) / 1000)) ∧
      (UpdateOverlayFPS g now).frame_count = 0 ∧
      (UpdateOverlayFPS g now).last_fps_update = now ∧
      (UpdateOverlayFPS g now).fps_initialized = true ∧
      (UpdateOverlayFPS g now).fps_text_cache =
        "FPS: " ++ formatFixed1 (UpdateOverlayFPS g now).overlay_fps ∧
      ∃ q r : Nat, r < 10 ∧
        (UpdateOverlayFPS g now).fps_text_cache =
          "FPS: " ++ ((if (UpdateOverlayFPS g now).overlay_fps < 0 then "-" else "") ++
            toString q ++ "." ++ toString r) ∧
        abs ((q : ℚ) + (r : ℚ) / 10 - abs (UpdateOverlayFPS g now).overlay_fps) ≤ 1 / 20) ∧
    (∀ start : Int,
      |(ticks (startClock g_overlay start) (uniformTicks start 60 1000)).overlay_fps - 60|
        ≤ 1 / 10 ∧
      (ticks (startClock g_overlay start) (uniformTicks start 60 1000)).fps_text_cache =
        "FPS: 60.0") ∧
    (∀ (start : Int) (ts : List Int) (now : Int), ts.length = 59 →
      (∀ t ∈ ts, elapsedMs t start < 1000) → elapsedMs now start = 1000 →
      |(ticks (startClock g_overlay start) (ts ++ [now])).overlay_fps - 60| ≤ 1 / 10 ∧
      (ticks (startClock g_overlay start) (ts ++ [now])).fps_text_cache = "FPS: 60.0") ∧
    ((UpdateOverlayFPS { frame_count := 78 } 1250000000).overlay_fps = 16567501 / 262144 ∧
      (UpdateOverlayFPS { frame_count := 78 } 1250000000).fps_text_cache = "FPS: 63.2") ∧
    ((UpdateOverlayFPS { frame_count := 0 } 3000000000).overlay_fps = 11184811 / 33554432 ∧
      (UpdateOverlayFPS { frame_count := 0 } 3000000000).fps_text_cache = "FPS: 0.3") ∧
    ((UpdateOverlayFPS { frame_count := 144 } 1007000000).overlay_fps = 1179583 / 8192 ∧
      (UpdateOverlayFPS { frame_count := 144 } 1007000000).fps_text_cache = "FPS: 144.0") := by
  refine ⟨fun g now h => ?_, fun start => ?_, fun start ts now hlen hin hlast => ?_,
    ?_, ?_, ?_⟩
  · obtain ⟨q, r, hr, htext, hnear⟩ := formatFixed1_spec
      (f32Div (f32OfInt (g.frame_count + 1))
        (f32Div (f32OfInt (elapsedMs now g.last_fps_update)) 1000))
    rw [UpdateOverlayFPS_of_ge g now h]
    refine ⟨rfl, fps_error (g.frame_count + 1) (elapsedMs now g.last_fps_update) h,
      rfl, rfl, rfl, rfl, q, r, hr, ?_, hnear⟩
    show "FPS: " ++ formatFixed1 _ = _
    rw [htext]
  · rw [ticks_sixty]
    refine ⟨?_, rfl⟩
    show |(60 : ℚ) - 60| ≤ 1 / 10
    norm_num
  · rw [ticks_sixty_of_window start ts now hlen hin hlast]
    refine ⟨?_, rfl⟩
    show |(60 : ℚ) - 60| ≤ 1 / 10
    norm_num
  · obtain ⟨h1, h2⟩ := UpdateOverlayFPS_measure 78 1250000000 1250 (by decide) (by norm_num)
    rw [h1, h2]
    have h79 : ((78 : Int) + 1) = 79 := by norm_num
    rw [h79, fps_point_1.1, fps_point_1.2]
    exact ⟨rfl, by decide⟩
  · obtain ⟨h1, h2⟩ := UpdateOverlayFPS_measure 0 3000000000 3000 (by decide) (by norm_num)
    rw [h1, h2]
    have h01 : ((0 : Int) + 1) = 1 := by norm_num
    rw [h01, fps_point_2.1, fps_point_2.2]
    exact ⟨rfl, by decide⟩
  · obtain ⟨h1, h2⟩ := UpdateOverlayFPS_measure 144 1007000000 1007 (by decide) (by norm_num)
    rw [h1, h2]
    have h145 : ((144 : Int) + 1) = 145 := by norm_num
    rw [h145, fps_point_3.1, fps_point_3.2]
    exact ⟨rfl, by decide⟩

/-- Witness of C3: the 60th frame arriving exactly 1000 ms after the last update; and
sixty ticks with the first at the start and the last 1000 ms later (tick `i`, from 0,
falling `i * 1000 / 59` ms after the start). -/
theorem C3_elapsed_window_publishes_fps_witness :
    1000 ≤ elapsedMs 1000000000 ({ frame_count := 59 } : OverlayState).last_fps_update ∧
    (UpdateOverlayFPS { frame_count := 59 } 1000000000).frame_count = 0 ∧
    (UpdateOverlayFPS { frame_count := 59 } 1000000000).last_fps_update = 1000000000 ∧
    (UpdateOverlayFPS { frame_count := 59 } 1000000000).fps_initialized = true ∧
    ((List.range 59).map (fun (i : Nat) => ((i : Int) * 1000000000) / 59)).length = 59 ∧
    (∀ t ∈ (List.range 59).map (fun (i : Nat) => ((i : Int) * 1000000000) / 59),
      elapsedMs t 0 < 1000) ∧
    elapsedMs 1000000000 0 = 1000 ∧
    (ticks (startClock g_overlay 0)
      ((List.range 59).map (fun (i : Nat) => ((i : Int) * 1000000000) / 59) ++
        [1000000000])).fps_text_cache = "FPS: 60.0" :=
  have h : 1000 ≤
      elapsedMs 1000000000 ({ frame_count := 59 } : OverlayState).last_fps_update := by
    decide
  have hc := C3_elapsed_window_publishes_fps.1 { frame_count := 59 } 1000000000 h
  have hlen : ((List.range 59).map (fun (i : Nat) => ((i : Int) * 1000000000) / 59)).length
      = 59 := by simp
  have hin : ∀ t ∈ (List.range 59).map (fun (i : Nat) => ((i : Int) * 1000000000) / 59),
      elapsedMs t 0 < 1000 := by
    intro t ht
    rw [List.mem_map] at ht
    obtain ⟨i, hi, rfl⟩ := ht
    rw [List.mem_range] at hi
    have h0 := elapsedMs_add 0 (((i : Int) * 1000000000) / 59) (by omega)
    rw [zero_add] at h0
    rw [h0]
    omega
  have hlast : elapsedMs 1000000000 0 = 1000 := by decide
  ⟨h, hc.2.2.1, hc.2.2.2.1, hc.2.2.2.2.1, hlen, hin, hlast,
    (C3_elapsed_window_publishes_fps.2.2.1 0 _ 1000000000 hlen hin hlast).2⟩

/-- C4.  In every state reached from the initial one by calls of `UpdateOverlayFPS`, a
call made while less than 1000 ms have elapsed since `last_fps_update` leaves
`fps_text_cache`, `overlay_fps`, `last_fps_update` and `fps_initialized` unchanged and
increments `frame_count` by exactly 1. -/
theorem C4_tick_inside_window (start : Int) (ts : List Int) (now : Int)
    (h : elapsedMs now (ticks (startClock g_overlay start) ts).last_fps_update < 1000) :
    (UpdateOverlayFPS (ticks (startClock g_overlay start) ts) now).fps_text_cache =
      (ticks (startClock g_overlay start) ts).fps_text_cache ∧
    (UpdateOverlayFPS (ticks (startClock g_overlay start) ts) now).overlay_fps =
      (ticks (startClock g_overlay start) ts).overlay_fps ∧
    (UpdateOverlayFPS (ticks (startClock g_overlay start) ts) now).last_fps_update =
      (ticks (startClock g_overlay start) ts).last_fps_update ∧
    (UpdateOverlayFPS (ticks (startClock g_overlay start) ts) now).fps_initialized =
      (ticks (startClock g_overlay start) ts).fps_initialized ∧
    (UpdateOverlayFPS (ticks (startClock g_overlay start) ts) now).frame_count =
      (ticks (startClock g_overlay start) ts).frame_count + 1 := by
  have hinv := ticks_placeholder ts (startClock g_overlay start) (fun _ => rfl)
  rw [UpdateOverlayFPS_of_lt _ now h]
  split_ifs with hi
  · exact ⟨rfl, rfl, rfl, rfl, rfl⟩
  · have hf : (ticks (startClock g_overlay start) ts).fps_initialized = false := by
      simpa using hi
    exact ⟨(hinv hf).symm, rfl, rfl, rfl, rfl⟩

/-- C5.  Along every sequence of `UpdateOverlayFPS` calls from the initial state in which
no call has yet found 1000 ms or more elapsed since `last_fps_update`, before and after
every call `fps_text_cache` is exactly `"FPS: ..."` and `fps_initialized` is false. -/
theorem C5_placeholder_before_first_window (start : Int) (ts : List Int)
    (h : ∀ (i : Nat) (t : Int), ts[i]? = some t →
      elapsedMs t (ticks (startClock g_overlay start) (ts.take i)).last_fps_update < 1000)
    (k : Nat) :
    (ticks (startClock g_overlay start) (ts.take k)).fps_text_cache = "FPS: ..." ∧
    (ticks (startClock g_overlay start) (ts.take k)).fps_initialized = false :=
  ticks_take_placeholder ts (startClock g_overlay start) rfl rfl h k

/-- Witness of C4: 30 ticks spread uniformly over 999 ms from a fresh state; the 30th,
999 ms after the start, only counts the frame. -/
theorem C4_tick_inside_window_witness :
    elapsedMs 999000000
      (ticks (startClock g_overlay 0) ((uniformTicks 0 30 999).take 29)).last_fps_update
        < 1000 ∧
    (UpdateOverlayFPS (ticks (startClock g_overlay 0) ((uniformTicks 0 30 999).take 29))
      999000000).fps_text_cache =
      (ticks (startClock g_overlay 0) ((uniformTicks 0 30 999).take 29)).fps_text_cache ∧
    (UpdateOverlayFPS (ticks (startClock g_overlay 0) ((uniformTicks 0 30 999).take 29))
      999000000).frame_count =
      (ticks (startClock g_overlay 0) ((uniformTicks 0 30 999).take 29)).frame_count + 1 :=
  have h : elapsedMs 999000000
      (ticks (startClock g_overlay 0) ((uniformTicks 0 30 999).take 29)).last_fps_update
        < 1000 := by
    set_option maxRecDepth 100000 in decide
  have hc := C4_tick_inside_window 0 ((uniformTicks 0 30 999).take 29) 999000000 h
  ⟨h, hc.1, hc.2.2.2.2⟩

/-- Witness of C5: three calls 100, 500 and 999 ms after the start. -/
theorem C5_placeholder_before_first_window_witness :
    (∀ (i : Nat) (t : Int), [100000000, 500000000, 999000000][i]? = some t →
      elapsedMs t (ticks (startClock g_overlay 0)
        (([100000000, 500000000, 999000000] : List Int).take i)).last_fps_update < 1000) ∧
    (ticks (startClock g_overlay 0)
      (([100000000, 500000000, 999000000] : List Int).take 3)).fps_text_cache = "FPS: ..." ∧
    (ticks (startClock g_overlay 0)
      (([100000000, 500000000, 999000000] : List Int).take 3)).fps_initialized = false :=
  have h : ∀ (i : Nat) (t : Int), [100000000, 500000000, 999000000][i]? = some t →
      elapsedMs t (ticks (startClock g_overlay 0)
        (([100000000, 500000000, 999000000] : List Int).take i)).last_fps_update < 1000 := by
    intro i t hit
    match i, hit with
    | 0, hit => simp at hit; subst hit; decide
    | 1, hit => simp at hit; subst hit; decide
    | 2, hit => simp at hit; subst hit; decide
    | n + 3, hit => simp at hit
  have hc := C5_placeholder_before_first_window 0 [100000000, 500000000, 999000000] h 3
  ⟨h, hc.1, hc.2⟩

/-! ## Surface teardown -/

/-- C8 (as amended).  The teardown sequence releases the render-target view, the swap
chain, the device context and the device, in that order, each guarded by a null check:
for every state of the four handles it releases exactly the non-null ones and leaves
the four handle variables as they were (it does not null them).  Run on four null
handles it releases nothing, and a second run releases nothing if and only if all
four handles were null to begin with. -/
theorem C8_teardown_releases_non_null_handles (h : SurfaceHandles) :
    (releaseSurface h).1 = h ∧
    (releaseSurface h).2 =
      ([h.render_target_view, h.swap_chain, h.device_context, h.device].filter
        (fun x => decide (x ≠ 0))).map Step.Release ∧
    ((releaseSurface (releaseSurface h).1).2 = [] ↔ h = ⟨0, 0, 0, 0⟩) := by
  obtain ⟨a, b, c, d⟩ := h
  refine ⟨rfl, ?_, ?_⟩
  · unfold releaseSurface
    by_cases ha : a = 0 <;> by_cases hb : b = 0 <;> by_cases hc : c = 0 <;>
      by_cases hd : d = 0 <;> simp [ha, hb, hc, hd, List.filter]
  · unfold releaseSurface
    by_cases ha : a = 0 <;> by_cases hb : b = 0 <;> by_cases hc : c = 0 <;>
      by_cases hd : d = 0 <;> simp [ha, hb, hc, hd]

/-- Counterexample to C8 as stated: with the four handles 1, 2, 3, 4 one run of the
teardown leaves all four non-null, and a second run releases all four once more. -/
theorem C8_counterexample :
    (releaseSurface ⟨1, 2, 3, 4⟩).1 = ⟨1, 2, 3, 4⟩ ∧
    (releaseSurface ⟨1, 2, 3, 4⟩).1 ≠ ⟨0, 0, 0, 0⟩ ∧
    (releaseSurface (releaseSurface ⟨1, 2, 3, 4⟩).1).2 =
      [Step.Release 1, Step.Release 2, Step.Release 3, Step.Release 4] := by
  decide

/-! ## Render loop -/

theorem drainMessages_dispatched (pump : List PumpEvent) (g : OverlayState) (running : Bool) :
    (drainMessages g running pump).2.2.filterMap Step.dispatched =
      pump.filterMap PumpEvent.pending := by
  induction pump generalizing g running with
  | nil => rfl
  | cons e rest ih =>
    cases e with
    | hook nCode wParam lParam tick =>
      simp [drainMessages, Step.dispatched, PumpEvent.pending, ih]
    | message msg imgui_handled =>
      simp [drainMessages, Step.dispatched, PumpEvent.pending, ih]

theorem drainMessages_running (pump : List PumpEvent) (g : OverlayState) (running : Bool) :
    (drainMessages g running pump).2.1 = (running && !pump.any PumpEvent.isQuit) := by
  induction pump generalizing g running with
  | nil => simp [drainMessages]
  | cons e rest ih =>
    cases e with
    | hook nCode wParam lParam tick =>
      simp [drainMessages, PumpEvent.isQuit, ih]
    | message msg imgui_handled =>
      by_cases hq : msg.message = WM_QUIT <;>
        simp [drainMessages, PumpEvent.isQuit, ih, hq]

theorem drainMessages_isDrainStep (pump : List PumpEvent) (g : OverlayState)
    (running : Bool) :
    ∀ s ∈ (drainMessages g running pump).2.2, s.isDrainStep = true := by
  induction pump generalizing g running with
  | nil => simp [drainMessages]
  | cons e rest ih =>
    cases e with
    | hook nCode wParam lParam tick =>
      intro s hs
      simp only [drainMessages, List.mem_cons] at hs
      rcases hs with rfl | hs
      · rfl
      · exact ih _ _ s hs
    | message msg imgui_handled =>
      intro s hs
      simp only [drainMessages, List.mem_cons] at hs
      rcases hs with rfl | rfl | hs
      · rfl
      · rfl
      · exact ih _ _ s hs

theorem DispatchMessage_should_exit (g : OverlayState) (msg : MSG) (imgui_handled : Bool)
    (h : g.should_exit = true) : (DispatchMessage g msg imgui_handled).should_exit = true := by
  unfold DispatchMessage
  split_ifs
  · exact window_procedure_should_exit g _ _ _ _ h
  · exact h

theorem drainMessages_should_exit (pump : List PumpEvent) (g : OverlayState)
    (running : Bool) (h : g.should_exit = true) :
    (drainMessages g running pump).1.should_exit = true := by
  induction pump generalizing g running with
  | nil => exact h
  | cons e rest ih =>
    cases e with
    | hook nCode wParam lParam tick =>
      exact ih _ _ (LowLevelMouseProc_should_exit g _ _ _ _ h)
    | message msg imgui_handled =>
      exact ih _ _ (DispatchMessage_should_exit g msg imgui_handled h)

theorem LowLevelMouseProc_window_handle (g : OverlayState) (nCode : Int) (wParam : Nat)
    (lParam : Int) (tick : Nat) :
    (LowLevelMouseProc g nCode wParam lParam tick).1.window_handle = g.window_handle := by
  rw [LowLevelMouseProc_eq]
  split_ifs <;> rfl

theorem DispatchMessage_window_handle (g : OverlayState) (msg : MSG) (imgui_handled : Bool) :
    (DispatchMessage g msg imgui_handled).window_handle = g.window_handle := by
  unfold DispatchMessage window_procedure
  split_ifs <;> rfl

/-- An escape key-down addressed to the overlay window and not taken by ImGui leaves
the exit flag raised at the end of the drain. -/
theorem drainMessages_escape (pump : List PumpEvent) (g : OverlayState) (running : Bool)
    (msg : MSG) (hmem : PumpEvent.message msg false ∈ pump)
    (hwnd0 : msg.hwnd ≠ 0) (hwnd : msg.hwnd = g.window_handle)
    (hkey : msg.message = WM_KEYDOWN) (hesc : msg.wParam = VK_ESCAPE) :
    (drainMessages g running pump).1.should_exit = true := by
  induction pump generalizing g running with
  | nil => simp at hmem
  | cons e rest ih =>
    rcases List.mem_cons.1 hmem with rfl | hrest
    · simp only [drainMessages]
      apply drainMessages_should_exit
      have hw : g.window_handle ≠ 0 := hwnd ▸ hwnd0
      simp [DispatchMessage, window_procedure, hw, hwnd, hkey, hesc]
    · cases e with
      | hook nCode wParam lParam tick =>
        simp only [drainMessages]
        exact ih _ _ hrest (by rw [LowLevelMouseProc_window_handle]; exact hwnd)
      | message m ih' =>
        simp only [drainMessages]
        exact ih _ _ hrest (by rw [DispatchMessage_window_handle]; exact hwnd)

theorem renderIteration_break_iff (rtv : Nat) (g : OverlayState) (f : FrameInput) :
    (renderIteration rtv g f).2.1 = LoopControl.breakLoop ↔
      (drainMessages g true f.pump).2.1 = false ∨
        (drainMessages g true f.pump).1.should_exit = true := by
  unfold renderIteration
  cases hr : (drainMessages g true f.pump).2.1 <;>
    cases he : (drainMessages g true f.pump).1.should_exit <;> simp [hr, he]

theorem renderIteration_of_break (rtv : Nat) (g : OverlayState) (f : FrameInput)
    (h : (drainMessages g true f.pump).2.1 = false ∨
      (drainMessages g true f.pump).1.should_exit = true) :
    renderIteration rtv g f =
      ((drainMessages g true f.pump).1, LoopControl.breakLoop,
        (drainMessages g true f.pump).2.2) := by
  unfold renderIteration
  rcases h with h | h <;> simp [h]

theorem renderIteration_of_next (rtv : Nat) (g : OverlayState) (f : FrameInput)
    (h : ¬ ((drainMessages g true f.pump).2.1 = false ∨
      (drainMessages g true f.pump).1.should_exit = true)) :
    renderIteration rtv g f =
      (UpdateOverlayFPS (drainMessages g true f.pump).1 f.now, LoopControl.nextIteration,
        (drainMessages g true f.pump).2.2 ++
          frameSteps (UpdateOverlayFPS (drainMessages g true f.pump).1 f.now) rtv) := by
  unfold renderIteration
  push_neg at h
  have h1 : (drainMessages g true f.pump).2.1 = true := by simpa using h.1
  have h2 : (drainMessages g true f.pump).1.should_exit = false := by simpa using h.2
  simp [h1, h2]

theorem renderIteration_control (rtv : Nat) (g : OverlayState) (f : FrameInput) :
    (renderIteration rtv g f).2.1 = LoopControl.breakLoop ∨
      (renderIteration rtv g f).2.1 = LoopControl.nextIteration := by
  cases (renderIteration rtv g f).2.1
  · exact Or.inl rfl
  · exact Or.inr rfl

theorem not_isDrainStep_not_mem (pump : List PumpEvent) (g : OverlayState) (running : Bool)
    (s : Step) (hs : s.isDrainStep = false) : s ∉ (drainMessages g running pump).2.2 := by
  intro hmem
  have := drainMessages_isDrainStep pump g running s hmem
  rw [hs] at this
  cases this

/-- C9.  One pass through the body of the render loop, for every list of pending
messages: every pending message is dispatched, in order, those after a quit message
included; if a quit message was among them or the exit flag is set once the drain is
finished (as it is when an escape key-down reached `window_procedure`) the loop
breaks without advancing the frame pacer, rendering or presenting; otherwise the pass
makes exactly one frame-pacer tick and one present. -/
theorem C9_render_loop_iteration (rtv : Nat) (g : OverlayState) (f : FrameInput) :
    (renderIteration rtv g f).2.2.filterMap Step.dispatched =
      f.pump.filterMap PumpEvent.pending ∧
    ((renderIteration rtv g f).2.1 = LoopControl.breakLoop ↔
      (∃ msg imgui_handled, PumpEvent.message msg imgui_handled ∈ f.pump ∧
        msg.message = WM_QUIT) ∨
      (drainMessages g true f.pump).1.should_exit = true) ∧
    (∀ msg : MSG, PumpEvent.message msg false ∈ f.pump → msg.hwnd ≠ 0 →
      msg.hwnd = g.window_handle → msg.message = WM_KEYDOWN → msg.wParam = VK_ESCAPE →
      (renderIteration rtv g f).2.1 = LoopControl.breakLoop) ∧
    ((renderIteration rtv g f).2.1 = LoopControl.breakLoop →
      (renderIteration rtv g f).1 = (drainMessages g true f.pump).1 ∧
      ∀ s ∈ (renderIteration rtv g f).2.2, s.isDrainStep = true) ∧
    ((renderIteration rtv g f).2.1 ≠ LoopControl.breakLoop →
      (renderIteration rtv g f).1 = UpdateOverlayFPS (drainMessages g true f.pump).1 f.now ∧
      (renderIteration rtv g f).2.2.count Step.UpdateOverlayFPS = 1 ∧
      (renderIteration rtv g f).2.2.count Step.Present = 1) := by
  have hbreak := renderIteration_break_iff rtv g f
  have hquit : (drainMessages g true f.pump).2.1 = false ↔
      ∃ msg imgui_handled, PumpEvent.message msg imgui_handled ∈ f.pump ∧
        msg.message = WM_QUIT := by
    rw [drainMessages_running]
    simp only [Bool.true_and, Bool.not_eq_false', List.any_eq_true]
    constructor
    · rintro ⟨e, he, hq⟩
      cases e with
      | hook nCode wParam lParam tick => simp [PumpEvent.isQuit] at hq
      | message msg imgui_handled =>
        exact ⟨msg, imgui_handled, he, by simpa [PumpEvent.isQuit] using hq⟩
    · rintro ⟨msg, imgui_handled, he, hq⟩
      exact ⟨_, he, by simp [PumpEvent.isQuit, hq]⟩
  refine ⟨?_, ?_, ?_, ?_, ?_⟩
  · by_cases hc : (drainMessages g true f.pump).2.1 = false ∨
        (drainMessages g true f.pump).1.should_exit = true
    · rw [renderIteration_of_break rtv g f hc]
      exact drainMessages_dispatched _ _ _
    · rw [renderIteration_of_next rtv g f hc]
      simp only [List.filterMap_append, drainMessages_dispatched]
      simp [frameSteps, Step.dispatched]
  · rw [hbreak, hquit]
  · intro msg hmem h0 hw hk he
    rw [hbreak]
    exact Or.inr (drainMessages_escape f.pump g true msg hmem h0 hw hk he)
  · intro hb
    rw [renderIteration_of_break rtv g f (hbreak.1 hb)]
    exact ⟨rfl, drainMessages_isDrainStep _ _ _⟩
  · intro hnb
    have hc : ¬ ((drainMessages g true f.pump).2.1 = false ∨
        (drainMessages g true f.pump).1.should_exit = true) := fun hc => hnb (hbreak.2 hc)
    have h1 : Step.UpdateOverlayFPS ∉ (drainMessages g true f.pump).2.2 :=
      not_isDrainStep_not_mem _ _ _ _ rfl
    have h2 : Step.Present ∉ (drainMessages g true f.pump).2.2 :=
      not_isDrainStep_not_mem _ _ _ _ rfl
    rw [renderIteration_of_next rtv g f hc]
    refine ⟨rfl, ?_, ?_⟩
    · show List.count Step.UpdateOverlayFPS (_ ++ _) = 1
      rw [List.count_append, List.count_eq_zero.2 h1]
      simp [frameSteps]
    · show List.count Step.Present (_ ++ _) = 1
      rw [List.count_append, List.count_eq_zero.2 h2]
      simp [frameSteps]

/-- Witness of C9: a queue holding a quit message followed by an escape key-down for
the overlay window (both are dispatched and the loop breaks), and an empty queue (one
frame-pacer tick and one present). -/
theorem C9_render_loop_iteration_witness :
    (renderIteration 7 { window_handle := 5 }
      ⟨[PumpEvent.message ⟨0, WM_QUIT, 0, 0⟩ false,
        PumpEvent.message ⟨5, WM_KEYDOWN, VK_ESCAPE, 0⟩ false], 0⟩).2.1 =
      LoopControl.breakLoop ∧
    (renderIteration 7 { window_handle := 5 }
      ⟨[PumpEvent.message ⟨0, WM_QUIT, 0, 0⟩ false,
        PumpEvent.message ⟨5, WM_KEYDOWN, VK_ESCAPE, 0⟩ false], 0⟩).1 =
      (drainMessages { window_handle := 5 } true
        [PumpEvent.message ⟨0, WM_QUIT, 0, 0⟩ false,
          PumpEvent.message ⟨5, WM_KEYDOWN, VK_ESCAPE, 0⟩ false]).1 ∧
    (renderIteration 7 { window_handle := 5 } ⟨[], 0⟩).2.1 ≠ LoopControl.breakLoop ∧
    (renderIteration 7 { window_handle := 5 } ⟨[], 0⟩).2.2.count Step.UpdateOverlayFPS = 1 ∧
    (renderIteration 7 { window_handle := 5 } ⟨[], 0⟩).2.2.count Step.Present = 1 :=
  have hb : (renderIteration 7 { window_handle := 5 }
      ⟨[PumpEvent.message ⟨0, WM_QUIT, 0, 0⟩ false,
        PumpEvent.message ⟨5, WM_KEYDOWN, VK_ESCAPE, 0⟩ false], 0⟩).2.1 =
      LoopControl.breakLoop := by decide
  have hn : (renderIteration 7 { window_handle := 5 } ⟨[], 0⟩).2.1 ≠
      LoopControl.breakLoop := by decide
  have hnext := (C9_render_loop_iteration 7 { window_handle := 5 } ⟨[], 0⟩).2.2.2.2 hn
  ⟨hb, ((C9_render_loop_iteration 7 { window_handle := 5 }
      ⟨[PumpEvent.message ⟨0, WM_QUIT, 0, 0⟩ false,
        PumpEvent.message ⟨5, WM_KEYDOWN, VK_ESCAPE, 0⟩ false], 0⟩).2.2.2.1 hb).1,
    hn, hnext.2.1, hnext.2.2⟩

theorem UpdateOverlayFPS_window_handle (g : OverlayState) (now : Int) :
    (UpdateOverlayFPS g now).window_handle = g.window_handle := by
  unfold UpdateOverlayFPS
  simp only
  split_ifs <;> rfl

theorem drainMessages_window_handle (pump : List PumpEvent) (g : OverlayState)
    (running : Bool) :
    (drainMessages g running pump).1.window_handle = g.window_handle := by
  induction pump generalizing g running with
  | nil => rfl
  | cons e rest ih =>
    cases e with
    | hook nCode wParam lParam tick =>
      simp only [drainMessages]
      rw [ih, LowLevelMouseProc_window_handle]
    | message msg imgui_handled =>
      simp only [drainMessages]
      rw [ih, DispatchMessage_window_handle]

theorem renderIteration_window_handle (rtv : Nat) (g : OverlayState) (f : FrameInput) :
    (renderIteration rtv g f).1.window_handle = g.window_handle := by
  by_cases hc : (drainMessages g true f.pump).2.1 = false ∨
      (drainMessages g true f.pump).1.should_exit = true
  · rw [renderIteration_of_break rtv g f hc]
    exact drainMessages_window_handle _ _ _
  · rw [renderIteration_of_next rtv g f hc]
    show (UpdateOverlayFPS _ _).window_handle = _
    rw [UpdateOverlayFPS_window_handle, drainMessages_window_handle]

theorem drainMessages_quit (pump : List PumpEvent) (g : OverlayState) (msg : MSG)
    (imgui_handled : Bool) (hmem : PumpEvent.message msg imgui_handled ∈ pump)
    (hq : msg.message = WM_QUIT) : (drainMessages g true pump).2.1 = false := by
  rw [drainMessages_running]
  simp only [Bool.true_and, Bool.not_eq_false', List.any_eq_true]
  exact ⟨_, hmem, by simp [PumpEvent.isQuit, hq]⟩

/-- A pass that ends the loop makes the loop body break. -/
theorem renderIteration_of_endsLoop (rtv : Nat) (g : OverlayState) (f : FrameInput)
    (hw : g.window_handle ≠ 0) (h : EndsLoop g.window_handle f) :
    (renderIteration rtv g f).2.1 = LoopControl.breakLoop := by
  rw [renderIteration_break_iff]
  rcases h with ⟨msg, ih, hmem, hq⟩ | ⟨msg, hmem, hwnd, hk, he⟩
  · exact Or.inl (drainMessages_quit _ _ msg ih hmem hq)
  · exact Or.inr (drainMessages_escape _ _ _ msg hmem (hwnd ▸ hw) hwnd hk he)

theorem renderLoop_of_exit (rtv : Nat) (g : OverlayState) (frames : List FrameInput)
    (h : g.should_exit = true) : renderLoop rtv g frames = some (g, []) := by
  cases frames <;> simp [renderLoop, h]

theorem renderLoop_cons_break (rtv : Nat) (g : OverlayState) (f : FrameInput)
    (rest : List FrameInput) (h : g.should_exit = false)
    (hb : (renderIteration rtv g f).2.1 = LoopControl.breakLoop) :
    renderLoop rtv g (f :: rest) =
      some ((renderIteration rtv g f).1, (renderIteration rtv g f).2.2) := by
  simp [renderLoop, h, hb]

theorem renderLoop_cons_next (rtv : Nat) (g : OverlayState) (f : FrameInput)
    (rest : List FrameInput) (h : g.should_exit = false)
    (hn : (renderIteration rtv g f).2.1 = LoopControl.nextIteration) :
    renderLoop rtv g (f :: rest) =
      (renderLoop rtv (renderIteration rtv g f).1 rest).map
        (fun l => (l.1, (renderIteration rtv g f).2.2 ++ l.2)) := by
  simp [renderLoop, h, hn]

/-- The render loop terminates as soon as one of the passes ends it. -/
theorem renderLoop_isSome (rtv : Nat) (frames : List FrameInput) (g : OverlayState)
    (hw : g.window_handle ≠ 0) (h : ∃ f ∈ frames, EndsLoop g.window_handle f) :
    (renderLoop rtv g frames).isSome = true := by
  induction frames generalizing g with
  | nil => simp at h
  | cons f rest ih =>
    cases hexit : g.should_exit with
    | true => rw [renderLoop_of_exit rtv g _ hexit]; rfl
    | false =>
      rcases renderIteration_control rtv g f with hb | hn
      · rw [renderLoop_cons_break rtv g f rest hexit hb]; rfl
      · rw [renderLoop_cons_next rtv g f rest hexit hn, Option.isSome_map']
        have hwh := renderIteration_window_handle rtv g f
        apply ih
        · rw [hwh]; exact hw
        · obtain ⟨f', hf', hends⟩ := h
          rcases List.mem_cons.1 hf' with rfl | hrest
          · have := renderIteration_of_endsLoop rtv g f' hw hends
            rw [hn] at this
            cases this
          · exact ⟨f', hrest, by rw [hwh]; exact hends⟩

/-! ## Start-up -/

theorem WinMain_of_started (env : StartupEnv) (h1 : env.overlay ≠ 0)
    (h2 : env.mouse_hook ≠ 0) (h3 : 0 ≤ env.hr) (h4 : env.back_buffer ≠ 0) :
    WinMain env =
      match renderLoop env.render_target_view (stateAfterWindow env) env.frames with
      | none =>
        ⟨none, stateAfterWindow env,
          windowSteps ++ [Step.SetWindowsHookEx] ++ [Step.D3D11CreateDeviceAndSwapChain] ++
            [Step.GetBuffer] ++ guiSetupSteps env⟩
      | some l =>
        ⟨some 0, l.1,
          windowSteps ++ [Step.SetWindowsHookEx] ++ [Step.D3D11CreateDeviceAndSwapChain] ++
            [Step.GetBuffer] ++ guiSetupSteps env ++ l.2 ++ shutdownSteps env l.1⟩ := by
  unfold WinMain
  have h3' : ¬ env.hr < 0 := by omega
  simp only [h1, h2, h3', h4, if_false, ne_eq, not_false_eq_true, if_true]

/-- C6.  `WinMain` returns 1 if window creation, hook installation, device and
swap-chain creation or back-buffer acquisition fails, the four being checked in this
order, the first failure deciding and no later step being attempted; and when all
four succeed it returns 0 whenever the render loop terminates, as it does when some
pass meets a quit message or an escape key-down for the overlay window. -/
theorem C6_exit_code (env : StartupEnv) :
    (env.overlay = 0 →
      (WinMain env).exit_code = some 1 ∧
      (WinMain env).steps = windowSteps ++ [Step.MessageBox "Error creating window!"]) ∧
    (env.overlay ≠ 0 → env.mouse_hook = 0 →
      (WinMain env).exit_code = some 1 ∧
      (WinMain env).steps = windowSteps ++
        [Step.SetWindowsHookEx, Step.MessageBox "Error installing mouse hook!"]) ∧
    (env.overlay ≠ 0 → env.mouse_hook ≠ 0 → env.hr < 0 →
      (WinMain env).exit_code = some 1 ∧
      (WinMain env).steps = windowSteps ++
        [Step.SetWindowsHookEx, Step.D3D11CreateDeviceAndSwapChain,
          Step.MessageBox "Error initializing DirectX!"]) ∧
    (env.overlay ≠ 0 → env.mouse_hook ≠ 0 → 0 ≤ env.hr → env.back_buffer = 0 →
      (WinMain env).exit_code = some 1 ∧
      (WinMain env).steps = windowSteps ++
        [Step.SetWindowsHookEx, Step.D3D11CreateDeviceAndSwapChain, Step.GetBuffer,
          Step.MessageBox "Back buffer error!"]) ∧
    (env.overlay ≠ 0 → env.mouse_hook ≠ 0 → 0 ≤ env.hr → env.back_buffer ≠ 0 →
      ((renderLoop env.render_target_view (stateAfterWindow env) env.frames).isSome = true →
        (WinMain env).exit_code = some 0) ∧
      ((∃ f ∈ env.frames, EndsLoop env.overlay f) → (WinMain env).exit_code = some 0) ∧
      (WinMain env).exit_code ≠ some 1) := by
  refine ⟨fun h1 => ?_, fun h1 h2 => ?_, fun h1 h2 h3 => ?_, fun h1 h2 h3 h4 => ?_,
    fun h1 h2 h3 h4 => ?_⟩
  · simp [WinMain, h1]
  · simp [WinMain, h1, h2]
  · simp [WinMain, h1, h2, h3]
  · have h3' : ¬ env.hr < 0 := by omega
    simp [WinMain, h1, h2, h3', h4]
  · have hrun := WinMain_of_started env h1 h2 h3 h4
    have hsome : (renderLoop env.render_target_view (stateAfterWindow env) env.frames).isSome
        = true → (WinMain env).exit_code = some 0 := by
      intro hs
      rw [hrun]
      cases hl : renderLoop env.render_target_view (stateAfterWindow env) env.frames with
      | none => rw [hl] at hs; cases hs
      | some l => rfl
    refine ⟨hsome, fun hends => ?_, ?_⟩
    · exact hsome (renderLoop_isSome _ _ _ h1 hends)
    · rw [hrun]
      cases renderLoop env.render_target_view (stateAfterWindow env) env.frames with
      | none => simp
      | some l => simp

/-- Witness of C6: the run `goodRun`, ended by a quit message, returns 0; the same run
with the window, the hook, the device or the back buffer failing returns 1. -/
theorem C6_exit_code_witness :
    (WinMain { goodRun with overlay := 0 }).exit_code = some 1 ∧
    (WinMain { goodRun with overlay := 0 }).steps =
      windowSteps ++ [Step.MessageBox "Error creating window!"] ∧
    (WinMain { goodRun with mouse_hook := 0 }).exit_code = some 1 ∧
    (WinMain { goodRun with hr := -2147467259 }).exit_code = some 1 ∧
    (WinMain { goodRun with back_buffer := 0 }).exit_code = some 1 ∧
    (∃ f ∈ goodRun.frames, EndsLoop goodRun.overlay f) ∧
    (WinMain goodRun).exit_code = some 0 :=
  have hends : ∃ f ∈ goodRun.frames, EndsLoop goodRun.overlay f :=
    ⟨⟨[PumpEvent.message ⟨0, WM_QUIT, 0, 0⟩ false], 33000000⟩, by simp [goodRun],
      Or.inl ⟨⟨0, WM_QUIT, 0, 0⟩, false, by simp, rfl⟩⟩
  have hwindow := (C6_exit_code { goodRun with overlay := 0 }).1 rfl
  have hhook := (C6_exit_code { goodRun with mouse_hook := 0 }).2.1 (by decide) rfl
  have hdevice := (C6_exit_code { goodRun with hr := -2147467259 }).2.2.1
    (by decide) (by decide) (by decide)
  have hbuffer := (C6_exit_code { goodRun with back_buffer := 0 }).2.2.2.1
    (by decide) (by decide) (by decide) rfl
  ⟨hwindow.1, hwindow.2, hhook.1, hdevice.1, hbuffer.1, hends,
    ((C6_exit_code goodRun).2.2.2.2 (by decide) (by decide) (by decide) (by decide)).2.1 hends⟩

/-- C7, on the code: when the back buffer is retrieved and `CreateRenderTargetView`
fails, `WinMain` shows no error and does not return 1: it enters the render loop,
binds and clears the null render-target view, presents, and returns 0 when the loop
ends. -/
theorem C7_null_view_reaches_render_loop :
    noViewRun.back_buffer ≠ 0 ∧ noViewRun.render_target_view = 0 ∧
    (WinMain noViewRun).exit_code = some 0 ∧
    Step.ClearRenderTargetView 0 ∈ (WinMain noViewRun).steps ∧
    Step.Present ∈ (WinMain noViewRun).steps ∧
    (WinMain noViewRun).steps.any Step.isMessageBox = false := by
  refine ⟨by decide, rfl, by decide, by decide, by decide, by decide⟩

end Overlay
